import Mathlib

/-!
Thunder: RabbitMQ reliability layer.

A shallow embedding of the publish reliability engine
(`internal/events/rabbitmq/publisher`), the topology declarer
(`internal/events/rabbitmq/consumer/declares.go`) and the correlation-ID
helpers (`pkg/context/correlationID.go`), followed by the properties proved
about them.

Conventions of the embedding:

* a Go `error` is a value of `GoError`; `nil` is `none`;
* the AMQP channel is an external collaborator: it is a transition function
  `exec` on an arbitrary broker state, and every call made on it is appended
  to the list `issued`, so that "which operations were issued, in which order"
  is a statement about that list;
* tracing spans, loggers and mutexes have no influence on the values computed
  and are left out.
-/

set_option autoImplicit false

namespace Thunder

/-! ## Go errors, `eris` and `strings` -/

/-- A Go `error` value: one produced by a collaborator library, one made by
`eris.New`, or one made by `eris.Wrap` / `eris.Wrapf` around a cause. -/
inductive GoError where
  | foreign (text : String)
  | new (msg : String)
  | wrap (cause : GoError) (msg : String)
  deriving DecidableEq, Repr

/-- The text of `err.Error()`; a wrapped error prints its own message first and
the text of its cause after a colon. -/
def GoError.Error : GoError → String
  | .foreign text => text
  | .new msg => msg
  | .wrap cause msg => msg ++ ": " ++ cause.Error

namespace eris

/-- The call `eris.New(msg)`. -/
def New (msg : String) : GoError := GoError.new msg

/-- The call `eris.Wrap(err, msg)`. -/
def Wrap (err : GoError) (msg : String) : GoError := GoError.wrap err msg

/-- The call `eris.Wrapf(err, "failed to bind queue, topic: %s", arg)`: the only
format used in the sources has a single trailing `%s`, so the formatted message
is the text before the verb followed by the argument. -/
def Wrapf (err : GoError) (before : String) (arg : String) : GoError :=
  GoError.wrap err (before ++ arg)

end eris

namespace strings

/-- Substring test on character lists. -/
def containsChars : List Char → List Char → Bool
  | [], sub => sub.isEmpty
  | c :: cs, sub => sub.isPrefixOf (c :: cs) || containsChars cs sub

/-- The call `strings.Contains(s, substr)`. -/
def Contains (s substr : String) : Bool := containsChars s.data substr.data

end strings

/-! ## The AMQP collaborator -/

namespace amqp091

/-- A value stored in an `amqp091.Table` (only strings and integers occur). -/
inductive Value where
  | str (s : String)
  | int (n : Int)
  deriving DecidableEq, Repr

/-- An `amqp091.Table`; the `nil` table is the empty list. -/
abbrev Table := List (String × Value)

/-- The constant `amqp091.QueueMessageTTLArg`. -/
def QueueMessageTTLArg : String := "x-message-ttl"

/-- The constant `amqp091.QueueMaxLenArg`. -/
def QueueMaxLenArg : String := "x-max-length"

/-- The constant `amqp091.Persistent`. -/
def Persistent : Nat := 2

/-- A call on `amqp091.Channel`, with the arguments in the order of the Go
signature. -/
inductive Op where
  | QueueDeclarePassive (name : String) (durable autoDelete exclusive noWait : Bool)
      (args : Table)
  | QueueDeclare (name : String) (durable autoDelete exclusive noWait : Bool) (args : Table)
  | QueueDelete (name : String) (ifUnused ifEmpty noWait : Bool)
  | ExchangeDeclare (name kind : String) (durable autoDelete internal noWait : Bool)
      (args : Table)
  | QueueBind (name key exchange : String) (noWait : Bool) (args : Table)
  | Qos (prefetchCount prefetchSize : Int) (glob : Bool)
  deriving DecidableEq, Repr

/-- The channel as seen by the caller: each call moves the broker to a new
state and reports an error or `none`. Values returned besides the error are
discarded by every caller in the sources. -/
structure Channel (β : Type) where
  exec : β → Op → β × Option GoError

/-- The broker behind the channel together with the calls issued so far. -/
structure Conn (β : Type) where
  broker : β
  issued : List Op
  deriving DecidableEq

/-- One call on the channel. -/
def Channel.call {β : Type} (ch : Channel β) (w : Conn β) (op : Op) :
    Conn β × Option GoError :=
  ({ broker := (ch.exec w.broker op).1, issued := w.issued ++ [op] }, (ch.exec w.broker op).2)

end amqp091

open amqp091

/-! ## Consumer: topology declaration (`declares.go`) -/

namespace consumer

/-- The configuration consumed by the consumer (exchange name, queue name,
consumer name, prefetch count, consumer concurrency, disabled flag). -/
structure Config where
  ExchangeName : String
  QueueName : String
  ConsumerName : String
  PrefetchCount : Int
  ConsumerConcurrency : Int
  DisableConsumer : Bool
  deriving DecidableEq, Repr

/-- The field `chManager` of the consumer: the holder of the channel. -/
structure ChannelManager (β : Type) where
  Channel : amqp091.Channel β

/-- The receiver `rabbitmqConsumer`, reduced to the fields `declares.go` reads. -/
structure rabbitmqConsumer (β : Type) where
  config : Config
  chManager : ChannelManager β

/-- The shift-free constant expression `1000 * 60 * 60 * 24 * 14` of
`deadLetterDeclare`, evaluated exactly as the Go compiler evaluates an untyped
constant. -/
def dlxMessageTTL : Int := 1000 * 60 * 60 * 24 * 14

/-- The local `dlxProps` of `deadLetterDeclare`. -/
def dlxProps : Table :=
  [("x-queue-type", Value.str "quorum"),
   (QueueMessageTTLArg, Value.int dlxMessageTTL),
   (QueueMaxLenArg, Value.int 10000)]

/-- The tail of `deadLetterDeclare` after the optional delete (declare exchange,
declare queue, bind queue). -/
def deadLetterCreate {β : Type} (r : rabbitmqConsumer β) (w : Conn β) (dlxName : String) :
    Conn β × Option GoError :=
  match r.chManager.Channel.call w (Op.ExchangeDeclare dlxName "fanout" true false false false [])
  with
  | (w1, some err) => (w1, some (eris.Wrap err "failed to declare exchange"))
  | (w1, none) =>
    match r.chManager.Channel.call w1 (Op.QueueDeclare dlxName true false false false dlxProps)
    with
    | (w2, some err) => (w2, some (eris.Wrap err "failed to declare queue"))
    | (w2, none) =>
      match r.chManager.Channel.call w2 (Op.QueueBind dlxName "" dlxName false []) with
      | (w3, some err) => (w3, some (eris.Wrap err "failed to bind queue"))
      | (w3, none) => (w3, none)

/-- The method `rabbitmqConsumer.deadLetterDeclare`. -/
def deadLetterDeclare {β : Type} (r : rabbitmqConsumer β) (w : Conn β) (dlxName : String) :
    Conn β × Option GoError :=
  match r.chManager.Channel.call w
      (Op.QueueDeclarePassive dlxName true false false false dlxProps) with
  | (w1, some err) =>
    if !strings.Contains err.Error "NOT_FOUND" &&
        !strings.Contains err.Error "inequivalent arg" then
      (w1, some (eris.Wrap err "unexpected error checking queue"))
    else if strings.Contains err.Error "inequivalent arg" then
      match r.chManager.Channel.call w1 (Op.QueueDelete dlxName false false false) with
      | (w2, some err2) => (w2, some (eris.Wrap err2 "failed to delete existing queue"))
      | (w2, none) => deadLetterCreate r w2 dlxName
    else
      deadLetterCreate r w1 dlxName
  | (w1, none) => (w1, none)

/-- The method `rabbitmqConsumer.queueDeclare`. -/
def queueDeclare {β : Type} (r : rabbitmqConsumer β) (w : Conn β) (dlxName : String) :
    Conn β × Option GoError :=
  match r.chManager.Channel.call w
      (Op.ExchangeDeclare r.config.ExchangeName "topic" true false false false []) with
  | (w1, some err) => (w1, some (eris.Wrap err "failed to declare exchange"))
  | (w1, none) =>
    match r.chManager.Channel.call w1
        (Op.QueueDeclare r.config.QueueName true false false false
          [("x-queue-type", Value.str "quorum"), ("x-dead-letter-exchange", Value.str dlxName)])
    with
    | (w2, some err) => (w2, some (eris.Wrap err "failed to declare queue"))
    | (w2, none) => (w2, none)

/-- The method `rabbitmqConsumer.queueBindDeclare`: the `for ... range` loop over
the routing keys, returning at the first failing bind. -/
def queueBindDeclare {β : Type} (r : rabbitmqConsumer β) :
    Conn β → List String → Conn β × Option GoError
  | w, [] => (w, none)
  | w, routingKey :: rest =>
    match r.chManager.Channel.call w
        (Op.QueueBind r.config.QueueName routingKey r.config.ExchangeName false []) with
    | (w1, some err) => (w1, some (eris.Wrapf err "failed to bind queue, topic: " routingKey))
    | (w1, none) => queueBindDeclare r w1 rest

/-- The method `rabbitmqConsumer.declare`. -/
def declare {β : Type} (r : rabbitmqConsumer β) (w : Conn β) (routingKeys : List String) :
    Conn β × Option GoError :=
  match deadLetterDeclare r w (r.config.QueueName ++ "_dlx") with
  | (w1, some err) => (w1, some (eris.Wrap err "failed to declare dead letter"))
  | (w1, none) =>
    match queueDeclare r w1 (r.config.QueueName ++ "_dlx") with
    | (w2, some err) => (w2, some (eris.Wrap err "failed to declare queue"))
    | (w2, none) =>
      match queueBindDeclare r w2 routingKeys with
      | (w3, some err) => (w3, some (eris.Wrap err "failed to declare queue bind"))
      | (w3, none) =>
        match r.chManager.Channel.call w3 (Op.Qos r.config.PrefetchCount 0 false) with
        | (w4, some err) => (w4, some (eris.Wrap err "failed to set QoS"))
        | (w4, none) => (w4, none)

/-! ### Spec-side descriptions of the declare protocol -/

/-- A signed 32-bit integer kept in range by wrap-around. -/
def wrapInt32 (x : Int) : Int := (x + 2 ^ 31) % 2 ^ 32 - 2 ^ 31

/-- Multiplication of signed 32-bit integers. -/
def mulInt32 (a b : Int) : Int := wrapInt32 (a * b)

/-- The passive declare with which `deadLetterDeclare` probes the dead-letter
queue. -/
def probeStep (dlxName : String) : Op :=
  Op.QueueDeclarePassive dlxName true false false false dlxProps

/-- The mutating calls of the dead-letter repair: delete, declare exchange,
declare queue, bind. -/
def repairSteps (dlxName : String) : List Op :=
  [Op.QueueDelete dlxName false false false,
   Op.ExchangeDeclare dlxName "fanout" true false false false [],
   Op.QueueDeclare dlxName true false false false dlxProps,
   Op.QueueBind dlxName "" dlxName false []]

/-- Steps 2 to 4 of the declare protocol as the spec lists them: primary
exchange (topic, durable), primary queue (durable, quorum, dead-letter exchange
`<queue>_dlx`), one bind per routing key in the given order, QoS with the
configured prefetch count. -/
def primarySteps (cfg : Config) (routingKeys : List String) : List Op :=
  [Op.ExchangeDeclare cfg.ExchangeName "topic" true false false false [],
   Op.QueueDeclare cfg.QueueName true false false false
     [("x-queue-type", Value.str "quorum"),
      ("x-dead-letter-exchange", Value.str (cfg.QueueName ++ "_dlx"))]]
  ++ routingKeys.map (fun k => Op.QueueBind cfg.QueueName k cfg.ExchangeName false [])
  ++ [Op.Qos cfg.PrefetchCount 0 false]

/-- Spec-side execution of a list of steps: issue them in order and stop at the
first one that fails, reporting that step and its error. -/
def issueInOrder {β : Type} (ch : amqp091.Channel β) :
    Conn β → List Op → Conn β × Option (Op × GoError)
  | w, [] => (w, none)
  | w, op :: rest =>
    match ch.call w op with
    | (w1, some err) => (w1, some (op, err))
    | (w1, none) => issueInOrder ch w1 rest

/-- The error `declare` reports when the given primary step fails with `err`. -/
def stepError (op : Op) (err : GoError) : GoError :=
  match op with
  | Op.ExchangeDeclare _ _ _ _ _ _ _ =>
    GoError.wrap (GoError.wrap err "failed to declare exchange") "failed to declare queue"
  | Op.QueueDeclare _ _ _ _ _ _ =>
    GoError.wrap (GoError.wrap err "failed to declare queue") "failed to declare queue"
  | Op.QueueBind _ key _ _ _ =>
    GoError.wrap (GoError.wrap err ("failed to bind queue, topic: " ++ key))
      "failed to declare queue bind"
  | Op.Qos _ _ _ => GoError.wrap err "failed to set QoS"
  | _ => err

end consumer

/-! ## Identifiers (`github.com/google/uuid`) -/

namespace uuid

/-- A 128-bit identifier as produced by `uuid.Must(uuid.NewV7())`; only the low
128 bits of `val` are rendered. -/
structure UUID where
  val : Nat
  deriving DecidableEq, Repr

/-- One lower-case hexadecimal digit. -/
def hexDigit (n : Nat) : Char :=
  if n % 16 < 10 then Char.ofNat (48 + n % 16) else Char.ofNat (87 + n % 16)

/-- The `n` lowest hexadecimal digits of `v`, most significant first. -/
def hexChars (v : Nat) : Nat → List Char
  | 0 => []
  | n + 1 => hexChars (v / 16) n ++ [hexDigit v]

/-- The method `UUID.String`: the canonical 8-4-4-4-12 text form. -/
def UUID.String (u : UUID) : String :=
  String.mk (hexChars (u.val / 16 ^ 24) 8 ++ '-' :: hexChars (u.val / 16 ^ 20) 4 ++
    '-' :: hexChars (u.val / 16 ^ 16) 4 ++ '-' :: hexChars (u.val / 16 ^ 12) 4 ++
    '-' :: hexChars u.val 12)

end uuid

/-! ## Request metadata and correlation IDs (`pkg/context`) -/

namespace thunderContext

/-- Modelled from the spec: the type `Metadata`, whose declaration is not among
the sources; "an ordered mapping of string keys to string values". -/
structure Metadata where
  entries : List (String × String)
  deriving DecidableEq, Repr

/-- Modelled from the spec: the insertion into an ordered mapping used by
`Metadata.Set` (not among the sources); an existing key keeps its position and
takes the new value, a new key goes to the end. -/
def setEntry (key value : String) : List (String × String) → List (String × String)
  | [] => [(key, value)]
  | (k, v) :: rest =>
    if k = key then (key, value) :: rest else (k, v) :: setEntry key value rest

/-- Modelled from the spec: the method `Metadata.Set` (not among the sources);
the mapping holds `value` under `key` afterwards. -/
def Metadata.Set (md : Metadata) (key value : String) : Metadata :=
  { entries := setEntry key value md.entries }

/-- Modelled from the spec: the method `Metadata.Get` (not among the sources);
the value under `key`, the empty string when there is none. -/
def Metadata.Get (md : Metadata) (key : String) : String :=
  match md.entries.lookup key with
  | some v => v
  | none => ""

/-- Modelled from the spec: the method `Metadata.MarshalMap` (not among the
sources); the key/value pairs of the mapping ("flattened metadata map"). -/
def Metadata.MarshalMap (md : Metadata) : List (String × String) := md.entries

/-- A `context.Context`, reduced to the value it carries under the metadata key
(`none` when `MetadataFromContext` would return `nil`). -/
structure Context where
  metadata : Option Metadata
  deriving DecidableEq, Repr

/-- Modelled from the spec: the function `MetadataFromContext` (not among the
sources); the metadata "propagated through the call context", `nil` if none. -/
def MetadataFromContext (ctx : Context) : Option Metadata := ctx.metadata

/-- Modelled from the spec: the function `ContextWithMetadata` (not among the
sources); a context that carries the given metadata. -/
def ContextWithMetadata (_ctx : Context) (md : Metadata) : Context := { metadata := some md }

/-- The constant `ThunderCorrelationIDMetadataKey`. -/
def ThunderCorrelationIDMetadataKey : String := "x-thunder-correlation-id"

/-- The function `CorrelationIDFromContext`; `fresh` is the identifier that
`uuid.NewV7` hands out if it is called. -/
def CorrelationIDFromContext (fresh : uuid.UUID) (ctx : Context) : String :=
  match MetadataFromContext ctx with
  | none => fresh.String
  | some md => md.Get ThunderCorrelationIDMetadataKey

/-- The function `ContextWithCorrelationID`; `fresh` is the identifier that
`uuid.NewV7` hands out if it is called. -/
def ContextWithCorrelationID (fresh : uuid.UUID) (ctx : Context) (correlationID : String) :
    Context :=
  let md : Metadata := { entries := [] }
  if correlationID = "" then
    ContextWithMetadata ctx (md.Set ThunderCorrelationIDMetadataKey fresh.String)
  else
    ContextWithMetadata ctx (md.Set ThunderCorrelationIDMetadataKey correlationID)

end thunderContext

/-! ## Publisher (`publish.go`, `startPublisher.go`) -/

namespace publisher

open thunderContext

/-- The fields of `amqp091.Publishing` that `Publish` fills in. -/
structure Publishing where
  ContentType : String
  DeliveryMode : Nat
  Body : List UInt8
  Headers : Table
  deriving DecidableEq, Repr

/-- The struct `message`. -/
structure message where
  Context : Context
  Topic : String
  Message : Publishing
  deriving DecidableEq, Repr

/-- The result of `DeferredConfirmation.WaitContext(ctx)`: the pair
`(confirmed, err)`; a timeout of the 10 second context is one of the errors. -/
structure DeferredConfirmation where
  WaitContext : Bool × Option GoError

/-- The publishing side of the channel: the answer of
`PublishWithDeferredConfirmWithContext(ctx, exchange, key, mandatory, immediate, msg)`. -/
structure Channel where
  PublishWithDeferredConfirmWithContext :
    String → String → Bool → Bool → Publishing → Except GoError DeferredConfirmation

/-- The field `config` of the publisher. -/
structure Config where
  ExchangeName : String

/-- The receiver `rabbitmqPublisher`: `chManager` is `none` for the `nil`
pointer, `wg` is the counter of the wait group, `unpublishedMessages` the
content of the publish queue (head first), `pauseSignalChan` the content of the
signal channel of capacity one (`none` when it is empty), `lastPublishedAt` a
clock reading. -/
structure rabbitmqPublisher where
  config : Config
  chManager : Option Channel
  tracePropagator : Context → Publishing → Publishing
  wg : Int
  unpublishedMessages : List message
  pausePublish : Bool
  pauseSignalChan : Option Bool
  lastPublishedAt : Nat

/-- The function `amqpTableFromMetadata`. -/
def amqpTableFromMetadata (metadata : Metadata) : Table :=
  metadata.MarshalMap.map (fun kv => (kv.1, Value.str kv.2))

/-- The channel send `r.unpublishedMessages <- msg`. -/
def enqueue (r : rabbitmqPublisher) (msg : message) : rabbitmqPublisher :=
  { r with unpublishedMessages := r.unpublishedMessages ++ [msg] }

/-- The method `rabbitmqPublisher.Publish`. `jsonMarshal` is `json.Marshal`,
`idKey` is the constant `ThunderIDMetadataKey` (declared outside the sources),
and `uCorr`, `uCtx`, `uMsg` are the identifiers handed out by the three places
that may call `uuid.NewV7`. A `nil` metadata pointer cannot come back from the
context built one line earlier; that branch is rendered with empty metadata. -/
def Publish {α : Type} (jsonMarshal : α → Except GoError (List UInt8)) (idKey : String)
    (uCorr uCtx uMsg : uuid.UUID) (r : rabbitmqPublisher) (ctx : Context) (topic : String)
    (payload : α) : rabbitmqPublisher × Option GoError :=
  match r.chManager with
  | none => (r, some (eris.New "r.chManager is nil! Invalid publisher"))
  | some _ =>
    let r1 := { r with wg := r.wg + 1 }
    match jsonMarshal payload with
    | .error err => ({ r1 with wg := r1.wg - 1 }, some (eris.Wrap err "failed to encode event"))
    | .ok body =>
      let ctx1 := ContextWithCorrelationID uCtx ctx (CorrelationIDFromContext uCorr ctx)
      let metadata := ((MetadataFromContext ctx1).getD { entries := [] }).Set idKey uMsg.String
      (enqueue r1
        { Context := ctx1
          Topic := topic
          Message :=
            { ContentType := "application/json"
              DeliveryMode := amqp091.Persistent
              Body := body
              Headers := amqpTableFromMetadata metadata } }, none)

/-- Modelled from the spec: the method `pause` (not among the sources);
"pausing sets the shared flag and signals a single-slot channel". -/
def pause (r : rabbitmqPublisher) : rabbitmqPublisher :=
  { r with
    pausePublish := true
    pauseSignalChan := if r.pauseSignalChan.isNone then some true else r.pauseSignalChan }

/-- The method `updatePublishedAt`; `now` is the reading of `time.Now()`. -/
def updatePublishedAt (now : Nat) (r : rabbitmqPublisher) : rabbitmqPublisher :=
  { r with lastPublishedAt := now }

/-- The method `rabbitmqPublisher.publishMessage`, run on the channel `ch` that
`r.chManager.Channel` points to. -/
def publishMessage (ch : Channel) (now : Nat) (r : rabbitmqPublisher) (msg : message) :
    rabbitmqPublisher :=
  match ch.PublishWithDeferredConfirmWithContext r.config.ExchangeName msg.Topic true false
      (r.tracePropagator msg.Context msg.Message) with
  | .error _ => enqueue (pause r) msg
  | .ok deferredConfirmation =>
    match deferredConfirmation.WaitContext with
    | (_, some _) => enqueue r msg
    | (confirmed, none) =>
      if !confirmed then enqueue r msg
      else updatePublishedAt now { r with wg := r.wg - 1 }

/-- The outcome of one iteration of the dispatcher loop. -/
inductive LoopStep where
  | idle (r : rabbitmqPublisher)
  | dispatch (msg : message) (r : rabbitmqPublisher)
  | blocked

/-- One iteration of `proccessingLoop`: the `select` receives the pause signal
when one is pending, which empties the single slot, and sends a new one if the
flag is set and the channel is empty; otherwise the `default` branch receives
from the publish queue (blocking while it is empty) and hands the message to
`publisherFunc`. -/
def proccessingLoopStep (r : rabbitmqPublisher) : LoopStep :=
  match r.pauseSignalChan with
  | some _ =>
    let r1 := { r with pauseSignalChan := none }
    if r1.pausePublish && r1.pauseSignalChan.isNone then
      LoopStep.idle { r1 with pauseSignalChan := some true }
    else
      LoopStep.idle r1
  | none =>
    match r.unpublishedMessages with
    | [] => LoopStep.blocked
    | msg :: rest => LoopStep.dispatch msg { r with unpublishedMessages := rest }

/-- The dispatcher run for `n` iterations with nothing else touching the
publisher: the final state and the messages handed to send attempts, in order.
A blocked iteration ends the run. -/
def proccessingLoop : Nat → rabbitmqPublisher → rabbitmqPublisher × List message
  | 0, r => (r, [])
  | n + 1, r =>
    match proccessingLoopStep r with
    | LoopStep.idle r1 => proccessingLoop n r1
    | LoopStep.dispatch msg r1 => ((proccessingLoop n r1).1, msg :: (proccessingLoop n r1).2)
    | LoopStep.blocked => (r, [])

/-! ### The engine as a transition system -/

/-- Whether the send attempt for `msg` on `ch` ends with a positive
confirmation: the publish call returns no error, the wait returns no error and
the confirmation is positive. -/
def positivelyConfirmed (ch : Channel) (r : rabbitmqPublisher) (msg : message) : Bool :=
  match ch.PublishWithDeferredConfirmWithContext r.config.ExchangeName msg.Topic true false
      (r.tracePropagator msg.Context msg.Message) with
  | .error _ => false
  | .ok deferredConfirmation =>
    match deferredConfirmation.WaitContext with
    | (_, some _) => false
    | (confirmed, none) => confirmed

/-- The publisher together with the messages that the dispatcher has handed to a
send attempt that has not returned yet, and two counters kept for the statement
of the invariant: the number of `Publish` calls that returned `nil` and the
number of send attempts that ended with a positive confirmation. -/
structure Engine where
  pub : rabbitmqPublisher
  workers : List message
  accepted : Nat
  confirmed : Nat

/-- What can happen to the engine: a caller runs `Publish`, the dispatcher runs
one iteration of its loop, or the send attempt holding the `i`-th dispatched
message runs `publishMessage` to its end on the current channel. -/
inductive Event (α : Type) where
  | publish (uCorr uCtx uMsg : uuid.UUID) (ctx : Context) (topic : String) (payload : α)
  | loop
  | attempt (i : Nat) (ch : Channel) (now : Nat)

/-- One transition of the engine. -/
def Engine.step {α : Type} (jsonMarshal : α → Except GoError (List UInt8)) (idKey : String)
    (e : Engine) : Event α → Engine
  | Event.publish uCorr uCtx uMsg ctx topic payload =>
    { e with
      pub := (Publish jsonMarshal idKey uCorr uCtx uMsg e.pub ctx topic payload).1
      accepted :=
        if (Publish jsonMarshal idKey uCorr uCtx uMsg e.pub ctx topic payload).2.isNone then
          e.accepted + 1
        else e.accepted }
  | Event.loop =>
    match proccessingLoopStep e.pub with
    | LoopStep.idle r1 => { e with pub := r1 }
    | LoopStep.dispatch msg r1 => { e with pub := r1, workers := e.workers ++ [msg] }
    | LoopStep.blocked => e
  | Event.attempt i ch now =>
    match e.workers.get? i with
    | none => e
    | some msg =>
      { pub := publishMessage ch now e.pub msg
        workers := e.workers.eraseIdx i
        accepted := e.accepted
        confirmed := if positivelyConfirmed ch e.pub msg then e.confirmed + 1 else e.confirmed }

/-- The engine after a sequence of events. -/
def Engine.run {α : Type} (jsonMarshal : α → Except GoError (List UInt8)) (idKey : String)
    (e : Engine) (events : List (Event α)) : Engine :=
  events.foldl (Engine.step jsonMarshal idKey) e

end publisher

/-! ## Sample inputs -/

namespace samples

open consumer

/-- A channel on which every call is refused. -/
def refusingChannel : amqp091.Channel Unit :=
  { exec := fun b _ => (b, some (GoError.foreign "ACCESS_REFUSED - access to queue refused")) }

/-- A consumer configuration. -/
def sampleConfig : Config :=
  { ExchangeName := "orders"
    QueueName := "orders-service"
    ConsumerName := "orders-consumer"
    PrefetchCount := 10
    ConsumerConcurrency := 4
    DisableConsumer := false }

/-- A consumer whose channel refuses every call. -/
def refusedConsumer : rabbitmqConsumer Unit :=
  { config := sampleConfig, chManager := { Channel := refusingChannel } }

/-- A channel whose passive declare answers with the given error text and whose
other calls fail exactly on the operations listed in `failing`; the broker state
counts the calls. -/
def scriptedChannel (probeText : String) (failing : List Op) : amqp091.Channel Nat :=
  { exec := fun b op =>
      match op with
      | Op.QueueDeclarePassive _ _ _ _ _ _ => (b + 1, some (GoError.foreign probeText))
      | _ => if op ∈ failing then (b + 1, some (GoError.foreign "CHANNEL_ERROR")) else (b + 1, none) }

/-- A consumer on a scripted channel. -/
def scriptedConsumer (probeText : String) (failing : List Op) : rabbitmqConsumer Nat :=
  { config := sampleConfig, chManager := { Channel := scriptedChannel probeText failing } }

/-- Whether a recorded entity is a queue of the given name. -/
def isQueueNamed (name : String) : Op → Bool
  | Op.QueueDeclare n _ _ _ _ _ => n == name
  | _ => false

/-- Whether a recorded entity is an exchange of the given name. -/
def isExchangeNamed (name : String) : Op → Bool
  | Op.ExchangeDeclare n _ _ _ _ _ _ => n == name
  | _ => false

/-- Whether a recorded entity is a binding of the queue of the given name. -/
def isBindingOf (name : String) : Op → Bool
  | Op.QueueBind n _ _ _ _ => n == name
  | _ => false

/-- A small broker: its topology is the list of the declares and binds that
created its entities. Declaring an entity that exists with equal properties
changes nothing, declaring it with other properties is refused with
"inequivalent arg", probing an absent queue is refused with "NOT_FOUND". -/
def sampleBroker : amqp091.Channel (List Op) :=
  { exec := fun b op =>
      match op with
      | Op.QueueDeclarePassive name durable autoDelete exclusive noWait args =>
        if Op.QueueDeclare name durable autoDelete exclusive noWait args ∈ b then (b, none)
        else if b.any (isQueueNamed name) then
          (b, some (GoError.foreign "PRECONDITION_FAILED - inequivalent arg for queue"))
        else (b, some (GoError.foreign "NOT_FOUND - no queue"))
      | Op.QueueDeclare name _ _ _ _ _ =>
        if op ∈ b then (b, none)
        else if b.any (isQueueNamed name) then
          (b, some (GoError.foreign "PRECONDITION_FAILED - inequivalent arg for queue"))
        else (b ++ [op], none)
      | Op.ExchangeDeclare name _ _ _ _ _ _ =>
        if op ∈ b then (b, none)
        else if b.any (isExchangeNamed name) then
          (b, some (GoError.foreign "PRECONDITION_FAILED - inequivalent arg for exchange"))
        else (b ++ [op], none)
      | Op.QueueBind name _ exchange _ _ =>
        if op ∈ b then (b, none)
        else if b.any (isQueueNamed name) && b.any (isExchangeNamed exchange) then
          (b ++ [op], none)
        else (b, some (GoError.foreign "NOT_FOUND - no queue or exchange"))
      | Op.QueueDelete name _ _ _ =>
        (b.filter (fun e => !(isQueueNamed name e || isBindingOf name e)), none)
      | Op.Qos _ _ _ => (b, none) }

/-- A consumer on the small broker. -/
def brokerConsumer : rabbitmqConsumer (List Op) :=
  { config := sampleConfig, chManager := { Channel := sampleBroker } }

/-- The topology the small broker holds once `declare` has run for the routing
keys `a.*` and `b.*`. -/
def configuredTopology : List Op :=
  [Op.ExchangeDeclare "orders-service_dlx" "fanout" true false false false [],
   Op.QueueDeclare "orders-service_dlx" true false false false dlxProps,
   Op.QueueBind "orders-service_dlx" "" "orders-service_dlx" false [],
   Op.ExchangeDeclare "orders" "topic" true false false false [],
   Op.QueueDeclare "orders-service" true false false false
     [("x-queue-type", Value.str "quorum"),
      ("x-dead-letter-exchange", Value.str "orders-service_dlx")],
   Op.QueueBind "orders-service" "a.*" "orders" false [],
   Op.QueueBind "orders-service" "b.*" "orders" false []]

/-! ### Sample inputs of the publisher -/

/-- A channel that accepts every publish and confirms it positively. -/
def confirmingChannel : publisher.Channel :=
  { PublishWithDeferredConfirmWithContext := fun _ _ _ _ _ =>
      Except.ok { WaitContext := (true, none) } }

/-- A channel whose publish call fails. -/
def brokenChannel : publisher.Channel :=
  { PublishWithDeferredConfirmWithContext := fun _ _ _ _ _ =>
      Except.error (GoError.foreign "channel/connection is not open") }

/-- A channel that accepts the publish and whose confirmation wait times out. -/
def timingOutChannel : publisher.Channel :=
  { PublishWithDeferredConfirmWithContext := fun _ _ _ _ _ =>
      Except.ok { WaitContext := (false, some (GoError.foreign "context deadline exceeded")) } }

/-- An initialised, active publisher with an empty queue. -/
def samplePublisher : publisher.rabbitmqPublisher :=
  { config := { ExchangeName := "orders" }
    chManager := some confirmingChannel
    tracePropagator := fun _ p => p
    wg := 0
    unpublishedMessages := []
    pausePublish := false
    pauseSignalChan := none
    lastPublishedAt := 0 }

/-- A stand-in for `json.Marshal` on payloads that are either unsupported
(`none`) or already encoded (`some bytes`). -/
def sampleMarshal : Option (List UInt8) → Except GoError (List UInt8)
  | none => Except.error (GoError.foreign "json: unsupported type: chan int")
  | some bytes => Except.ok bytes

/-- A queued message. -/
def sampleMessage : publisher.message :=
  { Context := { metadata := none }
    Topic := "orders.created"
    Message :=
      { ContentType := "application/json"
        DeliveryMode := amqp091.Persistent
        Body := [123, 125]
        Headers := [("x-thunder-id", Value.str "00000000-0000-0000-0000-000000000001")] } }

/-- An engine at start-up. -/
def sampleEngine : publisher.Engine :=
  { pub := samplePublisher, workers := [], accepted := 0, confirmed := 0 }

/-- One payload is published, dispatched, times out, is dispatched again and is
confirmed. -/
def sampleEvents : List (publisher.Event (Option (List UInt8))) :=
  [publisher.Event.publish { val := 1 } { val := 2 } { val := 3 } { metadata := none }
     "orders.created" (some [123, 125]),
   publisher.Event.loop,
   publisher.Event.attempt 0 timingOutChannel 5,
   publisher.Event.loop,
   publisher.Event.attempt 0 confirmingChannel 9]

/-- A topology in which the dead-letter queue exists with a message TTL that is
not the policy value. -/
def staleTopology : List Op :=
  [Op.ExchangeDeclare "orders-service_dlx" "fanout" true false false false [],
   Op.QueueDeclare "orders-service_dlx" true false false false
     [("x-queue-type", Value.str "quorum"), ("x-message-ttl", Value.int 1000),
      ("x-max-length", Value.int 10000)],
   Op.QueueBind "orders-service_dlx" "" "orders-service_dlx" false []]

end samples

/-! ## Properties of the topology declarer -/

namespace consumer

/-- C4 (as stated, refuted): on a channel that refuses the passive declare with
an error naming neither "NOT_FOUND" nor "inequivalent arg", the error returned by
`deadLetterDeclare` is not the error of the passive declare: it is that error
wrapped by `eris.Wrap`. -/
theorem deadLetterDeclare_fatal_error_is_wrapped :
    (samples.refusedConsumer.chManager.Channel.exec ()
        (Op.QueueDeclarePassive "orders-service_dlx" true false false false dlxProps)).2
      = some (GoError.foreign "ACCESS_REFUSED - access to queue refused") ∧
    strings.Contains "ACCESS_REFUSED - access to queue refused" "NOT_FOUND" = false ∧
    strings.Contains "ACCESS_REFUSED - access to queue refused" "inequivalent arg" = false ∧
    (deadLetterDeclare samples.refusedConsumer { broker := (), issued := [] }
        "orders-service_dlx").2
      ≠ some (GoError.foreign "ACCESS_REFUSED - access to queue refused") := by
  refine ⟨rfl, by decide, by decide, ?_⟩
  decide

/-- C4 (amended): when the passive declare of the dead-letter queue fails with
an error whose text contains neither "NOT_FOUND" nor "inequivalent arg",
`deadLetterDeclare` returns that error wrapped with the message "unexpected
error checking queue" (the original error is the cause), and the passive declare
is the only call issued on the channel. -/
theorem deadLetterDeclare_fatal {β : Type} (r : rabbitmqConsumer β) (w : Conn β)
    (dlxName : String) (err : GoError)
    (hprobe : (r.chManager.Channel.exec w.broker
      (Op.QueueDeclarePassive dlxName true false false false dlxProps)).2 = some err)
    (hnf : strings.Contains err.Error "NOT_FOUND" = false)
    (hia : strings.Contains err.Error "inequivalent arg" = false) :
    (deadLetterDeclare r w dlxName).2 = some (GoError.wrap err "unexpected error checking queue") ∧
    (deadLetterDeclare r w dlxName).1.issued
      = w.issued ++ [Op.QueueDeclarePassive dlxName true false false false dlxProps] ∧
    (deadLetterDeclare r w dlxName).1.broker
      = (r.chManager.Channel.exec w.broker
          (Op.QueueDeclarePassive dlxName true false false false dlxProps)).1 := by
  simp [deadLetterDeclare, Channel.call, hprobe, hnf, hia, eris.Wrap]

/-- Witness of C4 (amended) on the refusing channel. -/
theorem deadLetterDeclare_fatal_witness :
    (deadLetterDeclare samples.refusedConsumer { broker := (), issued := [] }
        "orders-service_dlx").2
      = some (GoError.wrap (GoError.foreign "ACCESS_REFUSED - access to queue refused")
          "unexpected error checking queue") ∧
    (deadLetterDeclare samples.refusedConsumer { broker := (), issued := [] }
        "orders-service_dlx").1.issued
      = [] ++ [Op.QueueDeclarePassive "orders-service_dlx" true false false false dlxProps] ∧
    (deadLetterDeclare samples.refusedConsumer { broker := (), issued := [] }
        "orders-service_dlx").1.broker
      = (samples.refusedConsumer.chManager.Channel.exec ()
          (Op.QueueDeclarePassive "orders-service_dlx" true false false false dlxProps)).1 :=
  deadLetterDeclare_fatal samples.refusedConsumer { broker := (), issued := [] }
    "orders-service_dlx" (GoError.foreign "ACCESS_REFUSED - access to queue refused")
    rfl (by decide) (by decide)

/-- C5: when the passive declare fails with an error naming "NOT_FOUND" or
"inequivalent arg" and every later call succeeds, the calls after the probe are,
in this order, a `QueueDelete` of the dead-letter queue exactly when the error
names "inequivalent arg", the declare of the dead-letter exchange (fanout,
durable), the declare of the dead-letter queue (durable, policy arguments) and
the bind of the queue to the exchange with the empty routing key, and no error is
returned. When the delete fails, the delete is the last call issued and an error
is returned. -/
theorem deadLetterDeclare_repair {β : Type} (r : rabbitmqConsumer β) (w : Conn β)
    (dlxName : String) (err : GoError) (b1 : β)
    (hprobe : r.chManager.Channel.exec w.broker
      (Op.QueueDeclarePassive dlxName true false false false dlxProps) = (b1, some err))
    (hclass : strings.Contains err.Error "NOT_FOUND" = true ∨
      strings.Contains err.Error "inequivalent arg" = true) :
    (∀ b2 b3 b4 b5 : β,
      (if strings.Contains err.Error "inequivalent arg" = true then
          r.chManager.Channel.exec b1 (Op.QueueDelete dlxName false false false) = (b2, none)
        else b2 = b1) →
      r.chManager.Channel.exec b2 (Op.ExchangeDeclare dlxName "fanout" true false false false [])
        = (b3, none) →
      r.chManager.Channel.exec b3 (Op.QueueDeclare dlxName true false false false dlxProps)
        = (b4, none) →
      r.chManager.Channel.exec b4 (Op.QueueBind dlxName "" dlxName false []) = (b5, none) →
      (deadLetterDeclare r w dlxName).2 = none ∧
      (deadLetterDeclare r w dlxName).1.broker = b5 ∧
      (deadLetterDeclare r w dlxName).1.issued
        = w.issued ++ [Op.QueueDeclarePassive dlxName true false false false dlxProps]
          ++ (if strings.Contains err.Error "inequivalent arg" = true then
                [Op.QueueDelete dlxName false false false] else [])
          ++ [Op.ExchangeDeclare dlxName "fanout" true false false false [],
              Op.QueueDeclare dlxName true false false false
                [("x-queue-type", Value.str "quorum"), ("x-message-ttl", Value.int 1209600000),
                 ("x-max-length", Value.int 10000)],
              Op.QueueBind dlxName "" dlxName false []]) ∧
    (∀ (b2 : β) (err2 : GoError),
      strings.Contains err.Error "inequivalent arg" = true →
      r.chManager.Channel.exec b1 (Op.QueueDelete dlxName false false false) = (b2, some err2) →
      (deadLetterDeclare r w dlxName).2
        = some (GoError.wrap err2 "failed to delete existing queue") ∧
      (deadLetterDeclare r w dlxName).1.broker = b2 ∧
      (deadLetterDeclare r w dlxName).1.issued
        = w.issued ++ [Op.QueueDeclarePassive dlxName true false false false dlxProps,
            Op.QueueDelete dlxName false false false]) := by
  have hprops : ([("x-queue-type", Value.str "quorum"), ("x-message-ttl", Value.int 1209600000),
      ("x-max-length", Value.int 10000)] : Table) = dlxProps := by decide
  rw [hprops]
  constructor
  · intro b2 b3 b4 b5 hdel hex hq hbind
    by_cases hia : strings.Contains err.Error "inequivalent arg" = true
    · simp only [hia, if_true] at hdel
      simp [deadLetterDeclare, deadLetterCreate, Channel.call, hprobe, hia, hdel, hex, hq,
        hbind]
    · have hnf : strings.Contains err.Error "NOT_FOUND" = true := by
        rcases hclass with h | h
        · exact h
        · exact absurd h hia
      simp only [hia] at hdel
      simp only [Bool.false_eq_true, if_false] at hdel
      subst hdel
      simp [deadLetterDeclare, deadLetterCreate, Channel.call, hprobe, hia, hnf, hex, hq,
        hbind]
  · intro b2 err2 hia hdel
    simp [deadLetterDeclare, Channel.call, hprobe, hia, hdel, eris.Wrap]

/-- Witness of C5: an "inequivalent arg" probe error on a channel whose later
calls succeed (delete, exchange, queue, bind are issued), and the same probe
error on a channel whose delete fails (nothing is issued after the delete). -/
theorem deadLetterDeclare_repair_witness :
    ((deadLetterDeclare
          (samples.scriptedConsumer "PRECONDITION_FAILED - inequivalent arg x-message-ttl" [])
          { broker := 0, issued := [] } "orders-service_dlx").2 = none ∧
      (deadLetterDeclare
          (samples.scriptedConsumer "PRECONDITION_FAILED - inequivalent arg x-message-ttl" [])
          { broker := 0, issued := [] } "orders-service_dlx").1.broker = 5 ∧
      (deadLetterDeclare
          (samples.scriptedConsumer "PRECONDITION_FAILED - inequivalent arg x-message-ttl" [])
          { broker := 0, issued := [] } "orders-service_dlx").1.issued
        = [Op.QueueDeclarePassive "orders-service_dlx" true false false false dlxProps,
            Op.QueueDelete "orders-service_dlx" false false false,
            Op.ExchangeDeclare "orders-service_dlx" "fanout" true false false false [],
            Op.QueueDeclare "orders-service_dlx" true false false false
              [("x-queue-type", Value.str "quorum"), ("x-message-ttl", Value.int 1209600000),
               ("x-max-length", Value.int 10000)],
            Op.QueueBind "orders-service_dlx" "" "orders-service_dlx" false []]) ∧
    ((deadLetterDeclare
          (samples.scriptedConsumer "PRECONDITION_FAILED - inequivalent arg x-message-ttl"
            [Op.QueueDelete "orders-service_dlx" false false false])
          { broker := 0, issued := [] } "orders-service_dlx").2
        = some (GoError.wrap (GoError.foreign "CHANNEL_ERROR") "failed to delete existing queue") ∧
      (deadLetterDeclare
          (samples.scriptedConsumer "PRECONDITION_FAILED - inequivalent arg x-message-ttl"
            [Op.QueueDelete "orders-service_dlx" false false false])
          { broker := 0, issued := [] } "orders-service_dlx").1.broker = 2 ∧
      (deadLetterDeclare
          (samples.scriptedConsumer "PRECONDITION_FAILED - inequivalent arg x-message-ttl"
            [Op.QueueDelete "orders-service_dlx" false false false])
          { broker := 0, issued := [] } "orders-service_dlx").1.issued
        = [Op.QueueDeclarePassive "orders-service_dlx" true false false false dlxProps,
            Op.QueueDelete "orders-service_dlx" false false false]) :=
  ⟨(deadLetterDeclare_repair
      (samples.scriptedConsumer "PRECONDITION_FAILED - inequivalent arg x-message-ttl" [])
      { broker := 0, issued := [] } "orders-service_dlx"
      (GoError.foreign "PRECONDITION_FAILED - inequivalent arg x-message-ttl") 1 rfl
      (Or.inr (by decide))).1 2 3 4 5 (by decide) (by decide) (by decide) (by decide),
   (deadLetterDeclare_repair
      (samples.scriptedConsumer "PRECONDITION_FAILED - inequivalent arg x-message-ttl"
        [Op.QueueDelete "orders-service_dlx" false false false])
      { broker := 0, issued := [] } "orders-service_dlx"
      (GoError.foreign "PRECONDITION_FAILED - inequivalent arg x-message-ttl") 1 rfl
      (Or.inr (by decide))).2 2 (GoError.foreign "CHANNEL_ERROR") (by decide) (by decide)⟩

end consumer

/-! ### The declare protocol as a list of steps -/

namespace consumer

theorem issueInOrder_append {β : Type} (ch : amqp091.Channel β) (pre rest : List Op)
    (w : Conn β) :
    issueInOrder ch w (pre ++ rest)
      = match issueInOrder ch w pre with
        | (w1, none) => issueInOrder ch w1 rest
        | (w1, some x) => (w1, some x) := by
  induction pre generalizing w with
  | nil => simp [issueInOrder]
  | cons op pre ih =>
    simp only [List.cons_append, issueInOrder]
    cases h : (ch.call w op).2 with
    | none =>
      have : ch.call w op = ((ch.call w op).1, none) := by rw [← h]
      rw [this]
      simp only
      exact ih _
    | some e =>
      have : ch.call w op = ((ch.call w op).1, some e) := by rw [← h]
      rw [this]

theorem issueInOrder_issued_of_ok {β : Type} (ch : amqp091.Channel β) (steps : List Op)
    (w w1 : Conn β) (h : issueInOrder ch w steps = (w1, none)) :
    w1.issued = w.issued ++ steps := by
  induction steps generalizing w with
  | nil =>
    simp [issueInOrder] at h
    simp [← h]
  | cons op steps ih =>
    simp only [issueInOrder] at h
    cases hc : (ch.call w op).2 with
    | none =>
      have hcall : ch.call w op = ((ch.call w op).1, none) := by rw [← hc]
      rw [hcall] at h
      simp only at h
      rw [ih _ h]
      simp [Channel.call]
    | some e =>
      have hcall : ch.call w op = ((ch.call w op).1, some e) := by rw [← hc]
      rw [hcall] at h
      simp at h

theorem queueBindDeclare_eq {β : Type} (r : rabbitmqConsumer β) (routingKeys : List String)
    (w : Conn β) :
    queueBindDeclare r w routingKeys
      = match issueInOrder r.chManager.Channel w
          (routingKeys.map
            (fun k => Op.QueueBind r.config.QueueName k r.config.ExchangeName false [])) with
        | (w1, none) => (w1, none)
        | (w1, some (Op.QueueBind _ key _ _ _, err)) =>
          (w1, some (GoError.wrap err ("failed to bind queue, topic: " ++ key)))
        | (w1, some (_, err)) => (w1, some err) := by
  induction routingKeys generalizing w with
  | nil => simp [queueBindDeclare, issueInOrder]
  | cons k ks ih =>
    simp only [queueBindDeclare, List.map_cons, issueInOrder]
    cases hc : (r.chManager.Channel.call w
        (Op.QueueBind r.config.QueueName k r.config.ExchangeName false [])).2 with
    | none =>
      have hcall : r.chManager.Channel.call w
          (Op.QueueBind r.config.QueueName k r.config.ExchangeName false [])
          = ((r.chManager.Channel.call w
              (Op.QueueBind r.config.QueueName k r.config.ExchangeName false [])).1, none) := by
        rw [← hc]
      rw [hcall]
      simp only
      exact ih _
    | some e =>
      have hcall : r.chManager.Channel.call w
          (Op.QueueBind r.config.QueueName k r.config.ExchangeName false [])
          = ((r.chManager.Channel.call w
              (Op.QueueBind r.config.QueueName k r.config.ExchangeName false [])).1, some e) := by
        rw [← hc]
      rw [hcall]
      simp [eris.Wrapf]

theorem issueInOrder_failed_mem {β : Type} (ch : amqp091.Channel β) (steps : List Op)
    (w w1 : Conn β) (op : Op) (e : GoError)
    (h : issueInOrder ch w steps = (w1, some (op, e))) : op ∈ steps := by
  induction steps generalizing w with
  | nil => simp [issueInOrder] at h
  | cons s steps ih =>
    simp only [issueInOrder] at h
    rcases hc : ch.call w s with ⟨w2, _ | e2⟩
    · rw [hc] at h
      simp only at h
      exact List.mem_cons_of_mem _ (ih _ h)
    · rw [hc] at h
      simp only [Prod.mk.injEq, Option.some.injEq] at h
      rw [← h.2.1]
      exact List.mem_cons_self _ _

theorem primarySteps_eq (cfg : Config) (routingKeys : List String) :
    primarySteps cfg routingKeys
      = Op.ExchangeDeclare cfg.ExchangeName "topic" true false false false [] ::
        Op.QueueDeclare cfg.QueueName true false false false
          [("x-queue-type", Value.str "quorum"),
           ("x-dead-letter-exchange", Value.str (cfg.QueueName ++ "_dlx"))] ::
        (routingKeys.map (fun k => Op.QueueBind cfg.QueueName k cfg.ExchangeName false [])
          ++ [Op.Qos cfg.PrefetchCount 0 false]) := by
  simp [primarySteps]

theorem declare_eq_issueInOrder {β : Type} (r : rabbitmqConsumer β) (w : Conn β)
    (routingKeys : List String) :
    declare r w routingKeys
      = match deadLetterDeclare r w (r.config.QueueName ++ "_dlx") with
        | (w1, some err) => (w1, some (GoError.wrap err "failed to declare dead letter"))
        | (w1, none) =>
          match issueInOrder r.chManager.Channel w1 (primarySteps r.config routingKeys) with
          | (w2, none) => (w2, none)
          | (w2, some (op, err)) => (w2, some (stepError op err)) := by
  rcases hdl : deadLetterDeclare r w (r.config.QueueName ++ "_dlx") with ⟨w1, _ | err⟩
  · rw [primarySteps_eq]
    simp only [declare, hdl, queueDeclare, issueInOrder]
    rcases hex : r.chManager.Channel.call w1
        (Op.ExchangeDeclare r.config.ExchangeName "topic" true false false false [])
      with ⟨w2, _ | e2⟩
    · simp only
      rcases hq : r.chManager.Channel.call w2
          (Op.QueueDeclare r.config.QueueName true false false false
            [("x-queue-type", Value.str "quorum"),
             ("x-dead-letter-exchange", Value.str (r.config.QueueName ++ "_dlx"))])
        with ⟨w3, _ | e3⟩
      · simp only
        rw [issueInOrder_append, queueBindDeclare_eq]
        rcases hb : issueInOrder r.chManager.Channel w3
            (routingKeys.map
              (fun k => Op.QueueBind r.config.QueueName k r.config.ExchangeName false []))
          with ⟨w4, _ | ⟨op, e4⟩⟩
        · simp only [issueInOrder]
          rcases hqos : r.chManager.Channel.call w4 (Op.Qos r.config.PrefetchCount 0 false)
            with ⟨w5, _ | e5⟩
          · simp
          · simp [stepError, eris.Wrap]
        · have hmem := issueInOrder_failed_mem _ _ _ _ _ _ hb
          simp only [List.mem_map] at hmem
          obtain ⟨k, _, hk⟩ := hmem
          subst hk
          simp [stepError, eris.Wrap]
      · simp [stepError, eris.Wrap]
    · simp [stepError, eris.Wrap]
  · simp [declare, hdl, eris.Wrap]

theorem isPrefixOf_append_self (k post : List Char) : k.isPrefixOf (k ++ post) = true := by
  induction k with
  | nil => simp [List.isPrefixOf]
  | cons c k ih => simp [List.isPrefixOf, ih]

theorem containsChars_mid (pre k post : List Char) :
    strings.containsChars (pre ++ k ++ post) k = true := by
  induction pre with
  | nil =>
    cases hk : ([] ++ k ++ post) with
    | nil =>
      have hnil : k = [] := by
        cases k with
        | nil => rfl
        | cons c k => simp at hk
      simp [strings.containsChars, hnil]
    | cons c cs =>
      have hp : k.isPrefixOf (c :: cs) = true := by
        rw [← hk, List.nil_append]
        exact isPrefixOf_append_self k post
      simp [strings.containsChars, hp]
  | cons c pre ih =>
    have hcons : c :: pre ++ k ++ post = c :: (pre ++ k ++ post) := by simp
    rw [hcons]
    simp only [strings.containsChars, ih, Bool.or_true]

theorem bindError_names_key (err : GoError) (key : String) :
    strings.Contains
      (GoError.wrap (GoError.wrap err ("failed to bind queue, topic: " ++ key))
        "failed to declare queue bind").Error key = true := by
  have hdata : (GoError.wrap (GoError.wrap err ("failed to bind queue, topic: " ++ key))
        "failed to declare queue bind").Error.data
      = ("failed to declare queue bind".data ++ ": ".data
          ++ "failed to bind queue, topic: ".data) ++ key.data
          ++ (": ".data ++ err.Error.data) := by
    simp [GoError.Error, String.data_append, List.append_assoc]
  unfold strings.Contains
  rw [hdata]
  exact containsChars_mid _ _ _

/-- C7: `declare` runs the dead-letter declare for `QueueName ++ "_dlx"` first and
then the primary steps (exchange as topic and durable; queue as durable, quorum
and dead-lettering to `QueueName ++ "_dlx"`; one bind per routing key in the
given order; QoS with the configured prefetch count). A failing dead-letter
declare ends the call with an error and nothing further issued; when the
dead-letter declare succeeds and the primary steps before some step succeed but
that step fails, the call ends with an error and that step is the last one
issued; when all succeed the result is no error and all steps were issued in
order. When the failing step is the bind of key `k`, the error text names `k`
and no bind of a later key is issued. -/
theorem declare_steps_in_order {β : Type} (r : rabbitmqConsumer β) (w : Conn β)
    (routingKeys : List String) :
    primarySteps r.config routingKeys
      = [Op.ExchangeDeclare r.config.ExchangeName "topic" true false false false [],
         Op.QueueDeclare r.config.QueueName true false false false
           [("x-queue-type", Value.str "quorum"),
            ("x-dead-letter-exchange", Value.str (r.config.QueueName ++ "_dlx"))]]
        ++ routingKeys.map
            (fun k => Op.QueueBind r.config.QueueName k r.config.ExchangeName false [])
        ++ [Op.Qos r.config.PrefetchCount 0 false] ∧
    (∀ (w1 : Conn β) (err : GoError),
      deadLetterDeclare r w (r.config.QueueName ++ "_dlx") = (w1, some err) →
      declare r w routingKeys = (w1, some (GoError.wrap err "failed to declare dead letter"))) ∧
    (∀ w1 : Conn β, deadLetterDeclare r w (r.config.QueueName ++ "_dlx") = (w1, none) →
      (∀ w2 : Conn β,
        issueInOrder r.chManager.Channel w1 (primarySteps r.config routingKeys) = (w2, none) →
        declare r w routingKeys = (w2, none) ∧
        w2.issued = w1.issued ++ primarySteps r.config routingKeys) ∧
      (∀ (pre post : List Op) (op : Op) (w2 : Conn β) (b3 : β) (e : GoError),
        primarySteps r.config routingKeys = pre ++ op :: post →
        issueInOrder r.chManager.Channel w1 pre = (w2, none) →
        r.chManager.Channel.exec w2.broker op = (b3, some e) →
        declare r w routingKeys
          = ({ broker := b3, issued := w1.issued ++ pre ++ [op] }, some (stepError op e))) ∧
      (∀ (ks1 ks2 : List String) (k : String) (w2 : Conn β) (b3 : β) (e : GoError),
        routingKeys = ks1 ++ k :: ks2 →
        issueInOrder r.chManager.Channel w1
          ([Op.ExchangeDeclare r.config.ExchangeName "topic" true false false false [],
            Op.QueueDeclare r.config.QueueName true false false false
              [("x-queue-type", Value.str "quorum"),
               ("x-dead-letter-exchange", Value.str (r.config.QueueName ++ "_dlx"))]]
            ++ ks1.map
              (fun k => Op.QueueBind r.config.QueueName k r.config.ExchangeName false []))
          = (w2, none) →
        r.chManager.Channel.exec w2.broker
          (Op.QueueBind r.config.QueueName k r.config.ExchangeName false []) = (b3, some e) →
        declare r w routingKeys
          = ({ broker := b3,
               issued := w1.issued
                 ++ ([Op.ExchangeDeclare r.config.ExchangeName "topic" true false false false [],
                      Op.QueueDeclare r.config.QueueName true false false false
                        [("x-queue-type", Value.str "quorum"),
                         ("x-dead-letter-exchange", Value.str (r.config.QueueName ++ "_dlx"))]]
                    ++ ks1.map
                      (fun k => Op.QueueBind r.config.QueueName k r.config.ExchangeName false []))
                 ++ [Op.QueueBind r.config.QueueName k r.config.ExchangeName false []] },
             some (GoError.wrap (GoError.wrap e ("failed to bind queue, topic: " ++ k))
               "failed to declare queue bind")) ∧
        strings.Contains
          (GoError.wrap (GoError.wrap e ("failed to bind queue, topic: " ++ k))
            "failed to declare queue bind").Error k = true)) := by
  have hfail : ∀ (w1 : Conn β), deadLetterDeclare r w (r.config.QueueName ++ "_dlx") = (w1, none) →
      ∀ (pre post : List Op) (op : Op) (w2 : Conn β) (b3 : β) (e : GoError),
        primarySteps r.config routingKeys = pre ++ op :: post →
        issueInOrder r.chManager.Channel w1 pre = (w2, none) →
        r.chManager.Channel.exec w2.broker op = (b3, some e) →
        declare r w routingKeys
          = ({ broker := b3, issued := w1.issued ++ pre ++ [op] }, some (stepError op e)) := by
    intro w1 hdl pre post op w2 b3 e hsplit hpre hop
    rw [declare_eq_issueInOrder, hdl]
    simp only
    rw [hsplit, issueInOrder_append, hpre]
    simp only [issueInOrder, Channel.call, hop]
    rw [issueInOrder_issued_of_ok _ _ _ _ hpre]
  refine ⟨by simp [primarySteps], ?_, ?_⟩
  · intro w1 err hdl
    rw [declare_eq_issueInOrder, hdl]
  · intro w1 hdl
    refine ⟨?_, hfail w1 hdl, ?_⟩
    · intro w2 hall
      refine ⟨?_, issueInOrder_issued_of_ok _ _ _ _ hall⟩
      rw [declare_eq_issueInOrder, hdl]
      simp only
      rw [hall]
    · intro ks1 ks2 k w2 b3 e hkeys hpre hop
      refine ⟨?_, bindError_names_key e k⟩
      have h := hfail w1 hdl _
        (ks2.map (fun k => Op.QueueBind r.config.QueueName k r.config.ExchangeName false [])
          ++ [Op.Qos r.config.PrefetchCount 0 false]) _ w2 b3 e
        (by rw [hkeys]; simp [primarySteps]) hpre hop
      rw [h]
      simp [stepError]

/-- Witness of C7: with routing keys `a.*`, `b.*`, `c.*` on a channel where the
dead-letter queue is absent and the bind of `b.*` fails, `declare` stops at that
bind, names `b.*` in the error and never binds `c.*`. -/
theorem declare_steps_in_order_witness :
    declare (samples.scriptedConsumer "NOT_FOUND - no queue"
        [Op.QueueBind "orders-service" "b.*" "orders" false []])
        { broker := 0, issued := [] } ["a.*", "b.*", "c.*"]
      = ({ broker := 8,
           issued :=
             [Op.QueueDeclarePassive "orders-service_dlx" true false false false dlxProps,
              Op.ExchangeDeclare "orders-service_dlx" "fanout" true false false false [],
              Op.QueueDeclare "orders-service_dlx" true false false false dlxProps,
              Op.QueueBind "orders-service_dlx" "" "orders-service_dlx" false []]
             ++ ([Op.ExchangeDeclare "orders" "topic" true false false false [],
                  Op.QueueDeclare "orders-service" true false false false
                    [("x-queue-type", Value.str "quorum"),
                     ("x-dead-letter-exchange", Value.str ("orders-service" ++ "_dlx"))]]
                ++ ["a.*"].map (fun k => Op.QueueBind "orders-service" k "orders" false []))
             ++ [Op.QueueBind "orders-service" "b.*" "orders" false []] },
         some (GoError.wrap
           (GoError.wrap (GoError.foreign "CHANNEL_ERROR") ("failed to bind queue, topic: " ++ "b.*"))
           "failed to declare queue bind")) ∧
    strings.Contains
      (GoError.wrap
        (GoError.wrap (GoError.foreign "CHANNEL_ERROR") ("failed to bind queue, topic: " ++ "b.*"))
        "failed to declare queue bind").Error "b.*" = true :=
  ((declare_steps_in_order
      (samples.scriptedConsumer "NOT_FOUND - no queue"
        [Op.QueueBind "orders-service" "b.*" "orders" false []])
      { broker := 0, issued := [] } ["a.*", "b.*", "c.*"]).2.2
    { broker := 4,
      issued :=
        [Op.QueueDeclarePassive "orders-service_dlx" true false false false dlxProps,
         Op.ExchangeDeclare "orders-service_dlx" "fanout" true false false false [],
         Op.QueueDeclare "orders-service_dlx" true false false false dlxProps,
         Op.QueueBind "orders-service_dlx" "" "orders-service_dlx" false []] }
    (by decide)).2.2 ["a.*"] ["c.*"] "b.*"
    { broker := 7,
      issued :=
        [Op.QueueDeclarePassive "orders-service_dlx" true false false false dlxProps,
         Op.ExchangeDeclare "orders-service_dlx" "fanout" true false false false [],
         Op.QueueDeclare "orders-service_dlx" true false false false dlxProps,
         Op.QueueBind "orders-service_dlx" "" "orders-service_dlx" false [],
         Op.ExchangeDeclare "orders" "topic" true false false false [],
         Op.QueueDeclare "orders-service" true false false false
           [("x-queue-type", Value.str "quorum"),
            ("x-dead-letter-exchange", Value.str "orders-service_dlx")],
         Op.QueueBind "orders-service" "a.*" "orders" false []] }
    8 (GoError.foreign "CHANNEL_ERROR") (by decide) (by decide) (by decide)

end consumer

/-! ### Idempotence against a configured broker -/

namespace consumer

theorem issueInOrder_steady {β τ : Type} (ch : amqp091.Channel β) (topology : β → τ)
    (configured : β → Prop) (steps : List Op)
    (hsteady : ∀ (b : β) (op : Op), configured b → op ∈ steps →
      (ch.exec b op).2 = none ∧ configured (ch.exec b op).1 ∧
      topology (ch.exec b op).1 = topology b)
    (w : Conn β) (hw : configured w.broker) :
    ∃ w1 : Conn β, issueInOrder ch w steps = (w1, none) ∧ configured w1.broker ∧
      topology w1.broker = topology w.broker ∧ w1.issued = w.issued ++ steps := by
  induction steps generalizing w with
  | nil => exact ⟨w, by simp [issueInOrder], hw, rfl, by simp⟩
  | cons op steps ih =>
    obtain ⟨hok, hconf, htop⟩ := hsteady w.broker op hw (List.mem_cons_self _ _)
    obtain ⟨w1, h1, h2, h3, h4⟩ := ih
      (fun b o hb ho => hsteady b o hb (List.mem_cons_of_mem _ ho))
      { broker := (ch.exec w.broker op).1, issued := w.issued ++ [op] } hconf
    refine ⟨w1, ?_, h2, ?_, ?_⟩
    · simp only [issueInOrder, Channel.call, hok]
      exact h1
    · rw [h3]
      exact htop
    · rw [h4]
      simp

theorem declare_steady {β τ : Type} (r : rabbitmqConsumer β) (topology : β → τ)
    (configured : β → Prop) (routingKeys : List String)
    (hsteady : ∀ (b : β) (op : Op), configured b →
      op ∈ probeStep (r.config.QueueName ++ "_dlx") :: primarySteps r.config routingKeys →
      (r.chManager.Channel.exec b op).2 = none ∧
      configured (r.chManager.Channel.exec b op).1 ∧
      topology (r.chManager.Channel.exec b op).1 = topology b)
    (w : Conn β) (hw : configured w.broker) :
    ∃ w1 : Conn β, declare r w routingKeys = (w1, none) ∧ configured w1.broker ∧
      topology w1.broker = topology w.broker ∧
      w1.issued = w.issued
        ++ probeStep (r.config.QueueName ++ "_dlx") :: primarySteps r.config routingKeys := by
  obtain ⟨hok, hconf, htop⟩ := hsteady w.broker _ hw (List.mem_cons_self _ _)
  have hdl : deadLetterDeclare r w (r.config.QueueName ++ "_dlx")
      = ({ broker := (r.chManager.Channel.exec w.broker
              (probeStep (r.config.QueueName ++ "_dlx"))).1,
           issued := w.issued ++ [probeStep (r.config.QueueName ++ "_dlx")] }, none) := by
    unfold probeStep at hok ⊢
    simp [deadLetterDeclare, Channel.call, hok]
  obtain ⟨w1, h1, h2, h3, h4⟩ := issueInOrder_steady r.chManager.Channel topology configured
    (primarySteps r.config routingKeys)
    (fun b o hb ho => hsteady b o hb (List.mem_cons_of_mem _ ho))
    { broker := (r.chManager.Channel.exec w.broker
        (probeStep (r.config.QueueName ++ "_dlx"))).1,
      issued := w.issued ++ [probeStep (r.config.QueueName ++ "_dlx")] } hconf
  refine ⟨w1, ?_, h2, ?_, ?_⟩
  · rw [declare_eq_issueInOrder, hdl]
    simp only
    rw [h1]
  · rw [h3]
    exact htop
  · rw [h4]
    simp

theorem ne_append_dlx (s : String) : s ≠ s ++ "_dlx" := by
  intro h
  have hlen := congrArg String.length h
  rw [String.length_append] at hlen
  have h4 : "_dlx".length = 4 := by decide
  omega

/-- C6: on a broker that is already configured (the passive probe of the
dead-letter queue, the declare of the primary exchange and queue, every bind and
the QoS call succeed, keep the broker configured and leave its topology as it
is), `declare` called once or twice returns no error and leaves the topology
unchanged; the calls issued are the probe and the primary steps only, none of
them a `QueueDelete` or one of the dead-letter repair calls. -/
theorem declare_idempotent {β τ : Type} (r : rabbitmqConsumer β) (topology : β → τ)
    (configured : β → Prop) (routingKeys : List String)
    (hsteady : ∀ (b : β) (op : Op), configured b →
      op ∈ probeStep (r.config.QueueName ++ "_dlx") :: primarySteps r.config routingKeys →
      (r.chManager.Channel.exec b op).2 = none ∧
      configured (r.chManager.Channel.exec b op).1 ∧
      topology (r.chManager.Channel.exec b op).1 = topology b)
    (w : Conn β) (hw : configured w.broker) :
    (declare r w routingKeys).2 = none ∧
    (declare r (declare r w routingKeys).1 routingKeys).2 = none ∧
    topology (declare r w routingKeys).1.broker = topology w.broker ∧
    topology (declare r (declare r w routingKeys).1 routingKeys).1.broker = topology w.broker ∧
    (declare r w routingKeys).1.issued
      = w.issued
        ++ probeStep (r.config.QueueName ++ "_dlx") :: primarySteps r.config routingKeys ∧
    (declare r (declare r w routingKeys).1 routingKeys).1.issued
      = w.issued
        ++ probeStep (r.config.QueueName ++ "_dlx") :: primarySteps r.config routingKeys
        ++ probeStep (r.config.QueueName ++ "_dlx") :: primarySteps r.config routingKeys ∧
    (∀ op ∈ probeStep (r.config.QueueName ++ "_dlx") :: primarySteps r.config routingKeys,
      op ∉ repairSteps (r.config.QueueName ++ "_dlx") ∧
      ∀ (name : String) (ifUnused ifEmpty noWait : Bool),
        op ≠ Op.QueueDelete name ifUnused ifEmpty noWait) := by
  obtain ⟨w1, h1, hc1, ht1, hi1⟩ := declare_steady r topology configured routingKeys hsteady w hw
  obtain ⟨w2, h2, _, ht2, hi2⟩ := declare_steady r topology configured routingKeys hsteady w1 hc1
  have e1 : (declare r w routingKeys).1 = w1 := by rw [h1]
  have e1' : (declare r w routingKeys).2 = none := by rw [h1]
  have e2 : (declare r w1 routingKeys).1 = w2 := by rw [h2]
  have e2' : (declare r w1 routingKeys).2 = none := by rw [h2]
  rw [e1, e2]
  refine ⟨e1', e2', ht1, by rw [ht2, ht1], hi1, by rw [hi2, hi1], ?_⟩
  intro op hop
  have hne := ne_append_dlx r.config.QueueName
  simp only [probeStep, primarySteps, List.mem_cons, List.mem_append, List.mem_map,
    List.mem_singleton, List.not_mem_nil, or_false] at hop
  rcases hop with rfl | ((rfl | rfl) | ⟨k, _, rfl⟩) | rfl
  · simp [repairSteps]
  · simp [repairSteps]
  · simp [repairSteps, dlxProps]
  · simp [repairSteps, hne]
  · simp [repairSteps]

/-- Witness of C6 on the small broker holding the configured topology: `declare`
run once and twice returns no error and the topology stays the configured
one. -/
theorem declare_idempotent_witness :
    (declare samples.brokerConsumer { broker := samples.configuredTopology, issued := [] }
        ["a.*", "b.*"]).2 = none ∧
    (declare samples.brokerConsumer
        (declare samples.brokerConsumer { broker := samples.configuredTopology, issued := [] }
          ["a.*", "b.*"]).1 ["a.*", "b.*"]).2 = none ∧
    (declare samples.brokerConsumer { broker := samples.configuredTopology, issued := [] }
        ["a.*", "b.*"]).1.broker = samples.configuredTopology ∧
    (declare samples.brokerConsumer
        (declare samples.brokerConsumer { broker := samples.configuredTopology, issued := [] }
          ["a.*", "b.*"]).1 ["a.*", "b.*"]).1.broker = samples.configuredTopology :=
  have h := declare_idempotent samples.brokerConsumer (fun b => b)
    (fun b => b = samples.configuredTopology) ["a.*", "b.*"]
    (by
      intro b op hb hop
      subst hb
      have hop2 : op ∈
          [probeStep "orders-service_dlx",
           Op.ExchangeDeclare "orders" "topic" true false false false [],
           Op.QueueDeclare "orders-service" true false false false
             [("x-queue-type", Value.str "quorum"),
              ("x-dead-letter-exchange", Value.str "orders-service_dlx")],
           Op.QueueBind "orders-service" "a.*" "orders" false [],
           Op.QueueBind "orders-service" "b.*" "orders" false [],
           Op.Qos 10 0 false] := hop
      simp only [List.mem_cons, List.mem_singleton, List.not_mem_nil, or_false] at hop2
      rcases hop2 with rfl | rfl | rfl | rfl | rfl | rfl <;> decide)
    { broker := samples.configuredTopology, issued := [] } rfl
  ⟨h.1, h.2.1, h.2.2.1, h.2.2.2.1⟩

end consumer

/-! ### The dead-letter policy values -/

namespace consumer

theorem deadLetterCreate_issued {β : Type} (r : rabbitmqConsumer β) (w : Conn β)
    (dlxName : String) :
    ∃ rest : List Op, (deadLetterCreate r w dlxName).1.issued = w.issued ++ rest ∧
      ∀ op ∈ rest, op ∈ repairSteps dlxName := by
  rcases hex : r.chManager.Channel.exec w.broker
      (Op.ExchangeDeclare dlxName "fanout" true false false false []) with ⟨b1, _ | e1⟩
  · rcases hq : r.chManager.Channel.exec b1
        (Op.QueueDeclare dlxName true false false false dlxProps) with ⟨b2, _ | e2⟩
    · rcases hb : r.chManager.Channel.exec b2 (Op.QueueBind dlxName "" dlxName false [])
        with ⟨b3, _ | e3⟩
      · exact ⟨[Op.ExchangeDeclare dlxName "fanout" true false false false [],
            Op.QueueDeclare dlxName true false false false dlxProps,
            Op.QueueBind dlxName "" dlxName false []],
          by simp [deadLetterCreate, Channel.call, hex, hq, hb], by simp [repairSteps]⟩
      · exact ⟨[Op.ExchangeDeclare dlxName "fanout" true false false false [],
            Op.QueueDeclare dlxName true false false false dlxProps,
            Op.QueueBind dlxName "" dlxName false []],
          by simp [deadLetterCreate, Channel.call, hex, hq, hb], by simp [repairSteps]⟩
    · exact ⟨[Op.ExchangeDeclare dlxName "fanout" true false false false [],
          Op.QueueDeclare dlxName true false false false dlxProps],
        by simp [deadLetterCreate, Channel.call, hex, hq], by simp [repairSteps]⟩
  · exact ⟨[Op.ExchangeDeclare dlxName "fanout" true false false false []],
      by simp [deadLetterCreate, Channel.call, hex], by simp [repairSteps]⟩

theorem deadLetterDeclare_issued {β : Type} (r : rabbitmqConsumer β) (w : Conn β)
    (dlxName : String) :
    ∃ rest : List Op,
      (deadLetterDeclare r w dlxName).1.issued = w.issued ++ probeStep dlxName :: rest ∧
      ∀ op ∈ rest, op ∈ repairSteps dlxName := by
  rcases hp : r.chManager.Channel.exec w.broker
      (Op.QueueDeclarePassive dlxName true false false false dlxProps) with ⟨b1, _ | err⟩
  · exact ⟨[], by simp [deadLetterDeclare, Channel.call, hp, probeStep], by simp⟩
  · cases hia : strings.Contains err.Error "inequivalent arg"
    · cases hnf : strings.Contains err.Error "NOT_FOUND"
      · exact ⟨[], by simp [deadLetterDeclare, Channel.call, hp, probeStep, hia, hnf], by simp⟩
      · obtain ⟨rest, h1, h2⟩ := deadLetterCreate_issued r
          { broker := b1, issued := w.issued ++ [probeStep dlxName] } dlxName
        refine ⟨rest, ?_, h2⟩
        simp only [probeStep] at h1
        simp [deadLetterDeclare, Channel.call, hp, hia, hnf, h1, probeStep]
    · rcases hd : r.chManager.Channel.exec b1 (Op.QueueDelete dlxName false false false)
        with ⟨b2, _ | e2⟩
      · obtain ⟨rest, h1, h2⟩ := deadLetterCreate_issued r
          { broker := b2,
            issued := w.issued ++ [probeStep dlxName]
              ++ [Op.QueueDelete dlxName false false false] } dlxName
        refine ⟨Op.QueueDelete dlxName false false false :: rest, ?_, ?_⟩
        · simp only [probeStep, List.append_assoc, List.cons_append, List.nil_append] at h1
          simp [deadLetterDeclare, Channel.call, hp, hia, hd, h1, probeStep]
        · intro op hop
          rcases List.mem_cons.mp hop with rfl | hop
          · simp [repairSteps]
          · exact h2 op hop
      · exact ⟨[Op.QueueDelete dlxName false false false],
          by simp [deadLetterDeclare, Channel.call, hp, probeStep, hia, hd],
          by simp [repairSteps]⟩

/-- C8: the policy arguments of the dead-letter queue are x-queue-type =
"quorum", x-message-ttl = 1000*60*60*24*14 = 1,209,600,000 (14 days in
milliseconds, the same value when every product is taken in signed 32-bit
arithmetic) and x-max-length = 10,000. In every run of `deadLetterDeclare` the
first call issued is the passive declare carrying that table, and every queue
declare issued after it names the same queue and carries the same table. When
the probe fails with a "NOT_FOUND" or "inequivalent arg" error and the delete
(if one is due) and the exchange declare succeed, the queue declare is issued,
right after the exchange declare, with the very table the probe carried. -/
theorem dlxProps_policy {β : Type} (r : rabbitmqConsumer β) (w : Conn β) (dlxName : String) :
    dlxProps = [("x-queue-type", Value.str "quorum"), ("x-message-ttl", Value.int 1209600000),
      ("x-max-length", Value.int 10000)] ∧
    dlxMessageTTL = 14 * (24 * 60 * 60 * 1000) ∧
    mulInt32 (mulInt32 (mulInt32 (mulInt32 1000 60) 60) 24) 14 = dlxMessageTTL ∧
    (-(2 ^ 31) ≤ dlxMessageTTL ∧ dlxMessageTTL < 2 ^ 31) ∧
    (∃ rest : List Op,
      (deadLetterDeclare r w dlxName).1.issued
        = w.issued ++ Op.QueueDeclarePassive dlxName true false false false dlxProps :: rest ∧
      ∀ (name : String) (durable autoDelete exclusive noWait : Bool) (args : Table),
        Op.QueueDeclare name durable autoDelete exclusive noWait args ∈ rest →
        name = dlxName ∧ args = dlxProps) ∧
    (∀ (args : Table) (err : GoError) (b1 b2 b3 : β),
      r.chManager.Channel.exec w.broker
          (Op.QueueDeclarePassive dlxName true false false false args) = (b1, some err) →
      args = dlxProps →
      (strings.Contains err.Error "NOT_FOUND" = true ∨
        strings.Contains err.Error "inequivalent arg" = true) →
      (if strings.Contains err.Error "inequivalent arg" = true then
          r.chManager.Channel.exec b1 (Op.QueueDelete dlxName false false false) = (b2, none)
        else b2 = b1) →
      r.chManager.Channel.exec b2 (Op.ExchangeDeclare dlxName "fanout" true false false false [])
        = (b3, none) →
      ∃ tail : List Op,
        (deadLetterDeclare r w dlxName).1.issued
          = w.issued ++ [Op.QueueDeclarePassive dlxName true false false false args]
            ++ (if strings.Contains err.Error "inequivalent arg" = true then
                  [Op.QueueDelete dlxName false false false] else [])
            ++ [Op.ExchangeDeclare dlxName "fanout" true false false false [],
                Op.QueueDeclare dlxName true false false false args]
            ++ tail) := by
  refine ⟨by decide, by decide, by decide, by decide, ?_, ?_⟩
  · obtain ⟨rest, h1, h2⟩ := deadLetterDeclare_issued r w dlxName
    refine ⟨rest, h1, ?_⟩
    intro name durable autoDelete exclusive noWait args hmem
    have h := h2 _ hmem
    simp only [repairSteps, List.mem_cons, List.mem_singleton, List.not_mem_nil, or_false,
      Op.QueueDeclare.injEq] at h
    rcases h with h | h | h | h
    · exact absurd h (by simp)
    · exact absurd h (by simp)
    · exact ⟨h.1, h.2.2.2.2.2⟩
    · exact absurd h (by simp)
  · intro args err b1 b2 b3 hprobe hargs hclass hdel hex
    subst hargs
    have hcreate : ∀ w2 : Conn β, w2.broker = b2 →
        ∃ tail : List Op, (deadLetterCreate r w2 dlxName).1.issued
          = w2.issued ++ [Op.ExchangeDeclare dlxName "fanout" true false false false [],
              Op.QueueDeclare dlxName true false false false dlxProps] ++ tail := by
      intro w2 hw2
      rcases hq : r.chManager.Channel.exec b3
          (Op.QueueDeclare dlxName true false false false dlxProps) with ⟨b4, _ | e4⟩
      · rcases hb : r.chManager.Channel.exec b4 (Op.QueueBind dlxName "" dlxName false [])
          with ⟨b5, _ | e5⟩
        · exact ⟨[Op.QueueBind dlxName "" dlxName false []],
            by simp [deadLetterCreate, Channel.call, hw2, hex, hq, hb]⟩
        · exact ⟨[Op.QueueBind dlxName "" dlxName false []],
            by simp [deadLetterCreate, Channel.call, hw2, hex, hq, hb]⟩
      · exact ⟨[], by simp [deadLetterCreate, Channel.call, hw2, hex, hq]⟩
    cases hia : strings.Contains err.Error "inequivalent arg"
    · have hnf : strings.Contains err.Error "NOT_FOUND" = true := by
        rcases hclass with h | h
        · exact h
        · rw [hia] at h
          exact absurd h (by simp)
      simp only [hia, Bool.false_eq_true, if_false] at hdel
      obtain ⟨tail, ht⟩ := hcreate
        { broker := b1,
          issued := w.issued ++ [Op.QueueDeclarePassive dlxName true false false false dlxProps] }
        hdel.symm
      refine ⟨tail, ?_⟩
      simp only [List.append_assoc, List.cons_append, List.nil_append] at ht
      simp [deadLetterDeclare, Channel.call, hprobe, hia, hnf, ht]
    · simp only [hia, if_true] at hdel
      obtain ⟨tail, ht⟩ := hcreate
        { broker := b2,
          issued := w.issued ++ [Op.QueueDeclarePassive dlxName true false false false dlxProps,
            Op.QueueDelete dlxName false false false] } rfl
      refine ⟨tail, ?_⟩
      simp only [List.append_assoc, List.cons_append, List.nil_append] at ht
      simp [deadLetterDeclare, Channel.call, hprobe, hia, hdel, ht]

/-- Witness of C8: on the small broker holding a dead-letter queue with another
message TTL, `deadLetterDeclare` deletes the queue and declares it again with
the table of the probe; the probe of a second run is then accepted, so the
second run issues nothing but the probe. -/
theorem dlxProps_policy_witness :
    (∃ tail : List Op,
      (deadLetterDeclare samples.brokerConsumer
          { broker := samples.staleTopology, issued := [] } "orders-service_dlx").1.issued
        = [] ++ [Op.QueueDeclarePassive "orders-service_dlx" true false false false
              [("x-queue-type", Value.str "quorum"), ("x-message-ttl", Value.int 1209600000),
               ("x-max-length", Value.int 10000)]]
          ++ [Op.QueueDelete "orders-service_dlx" false false false]
          ++ [Op.ExchangeDeclare "orders-service_dlx" "fanout" true false false false [],
              Op.QueueDeclare "orders-service_dlx" true false false false
                [("x-queue-type", Value.str "quorum"), ("x-message-ttl", Value.int 1209600000),
                 ("x-max-length", Value.int 10000)]]
          ++ tail) ∧
    (deadLetterDeclare samples.brokerConsumer
        { broker := samples.staleTopology, issued := [] } "orders-service_dlx").2 = none ∧
    (deadLetterDeclare samples.brokerConsumer
        { broker := (deadLetterDeclare samples.brokerConsumer
            { broker := samples.staleTopology, issued := [] } "orders-service_dlx").1.broker,
          issued := [] } "orders-service_dlx")
      = ({ broker := [Op.ExchangeDeclare "orders-service_dlx" "fanout" true false false false [],
              Op.QueueDeclare "orders-service_dlx" true false false false
                [("x-queue-type", Value.str "quorum"), ("x-message-ttl", Value.int 1209600000),
                 ("x-max-length", Value.int 10000)],
              Op.QueueBind "orders-service_dlx" "" "orders-service_dlx" false []],
           issued := [Op.QueueDeclarePassive "orders-service_dlx" true false false false
              [("x-queue-type", Value.str "quorum"), ("x-message-ttl", Value.int 1209600000),
               ("x-max-length", Value.int 10000)]] }, none) :=
  ⟨(dlxProps_policy samples.brokerConsumer { broker := samples.staleTopology, issued := [] }
      "orders-service_dlx").2.2.2.2.2
      [("x-queue-type", Value.str "quorum"), ("x-message-ttl", Value.int 1209600000),
       ("x-max-length", Value.int 10000)]
      (GoError.foreign "PRECONDITION_FAILED - inequivalent arg for queue")
      samples.staleTopology
      [Op.ExchangeDeclare "orders-service_dlx" "fanout" true false false false []]
      [Op.ExchangeDeclare "orders-service_dlx" "fanout" true false false false []]
      (by decide) (by decide) (Or.inr (by decide)) (by decide) (by decide),
   by decide, by decide⟩

end consumer

/-! ## Properties of the correlation-ID helpers -/

namespace thunderContext

theorem uuid_String_ne_empty (u : uuid.UUID) : u.String ≠ "" := by
  intro h
  have hdata := congrArg String.data h
  simp [uuid.UUID.String] at hdata

theorem get_set_empty (key value : String) :
    (Metadata.Set { entries := [] } key value).Get key = value := by
  simp [Metadata.Set, Metadata.Get, setEntry, List.lookup]

/-- C9 (as stated, refuted): the empty correlation ID passed to
`ContextWithCorrelationID` is not what `CorrelationIDFromContext` reads back;
the context holds a generated identifier instead. -/
theorem ContextWithCorrelationID_empty_not_read_back :
    CorrelationIDFromContext { val := 7 }
      (ContextWithCorrelationID { val := 1 } { metadata := none } "") ≠ "" ∧
    CorrelationIDFromContext { val := 7 }
      (ContextWithCorrelationID { val := 1 } { metadata := none } "")
      = "00000000-0000-0000-0000-000000000001" := by
  constructor <;> decide

/-- C9 (amended): for every context and every non-empty correlation ID,
`CorrelationIDFromContext` reads back from the context returned by
`ContextWithCorrelationID` exactly the string passed in; for the empty
correlation ID it reads back the identifier generated by
`ContextWithCorrelationID`, which is not empty. -/
theorem ContextWithCorrelationID_read_back (fresh fresh2 : uuid.UUID) (ctx : Context)
    (correlationID : String) :
    (correlationID ≠ "" →
      CorrelationIDFromContext fresh2 (ContextWithCorrelationID fresh ctx correlationID)
        = correlationID) ∧
    (correlationID = "" →
      CorrelationIDFromContext fresh2 (ContextWithCorrelationID fresh ctx correlationID)
        = fresh.String ∧
      CorrelationIDFromContext fresh2 (ContextWithCorrelationID fresh ctx correlationID)
        ≠ "") := by
  constructor
  · intro hne
    simp only [ContextWithCorrelationID, hne, if_false, CorrelationIDFromContext,
      MetadataFromContext, ContextWithMetadata]
    exact get_set_empty _ _
  · intro he
    have hval : CorrelationIDFromContext fresh2 (ContextWithCorrelationID fresh ctx correlationID)
        = fresh.String := by
      simp only [ContextWithCorrelationID, he, if_true, CorrelationIDFromContext,
        MetadataFromContext, ContextWithMetadata]
      exact get_set_empty _ _
    exact ⟨hval, by rw [hval]; exact uuid_String_ne_empty fresh⟩

/-- Witness of C9 (amended): the correlation ID "req-42" is read back as it was
passed in. -/
theorem ContextWithCorrelationID_read_back_witness :
    CorrelationIDFromContext { val := 7 }
      (ContextWithCorrelationID { val := 1 } { metadata := none } "req-42") = "req-42" :=
  (ContextWithCorrelationID_read_back { val := 1 } { val := 7 } { metadata := none }
    "req-42").1 (by decide)

end thunderContext

/-! ## Properties of the publisher -/

namespace publisher

open thunderContext

theorem lookup_table_setEntry (key value : String) (entries : List (String × String)) :
    (List.map (fun kv : String × String => (kv.1, Value.str kv.2))
      (setEntry key value entries)).lookup key = some (Value.str value) := by
  induction entries with
  | nil => simp [setEntry, List.lookup]
  | cons kv rest ih =>
    obtain ⟨k, v⟩ := kv
    by_cases hk : k = key
    · simp [setEntry, hk, List.lookup]
    · have hne : (key == k) = false := by
        simp only [beq_eq_false_iff_ne, ne_eq]
        exact fun h => hk h.symm
      simp only [setEntry, hk, if_false, List.map_cons, List.lookup, hne]
      exact ih

theorem headers_hold_message_id (md : Metadata) (idKey value : String) :
    (amqpTableFromMetadata (md.Set idKey value)).lookup idKey = some (Value.str value) := by
  simp only [amqpTableFromMetadata, Metadata.MarshalMap, Metadata.Set]
  exact lookup_table_setEntry idKey value md.entries

/-- C1: `Publish` returns an error exactly when `chManager` is nil or the payload
cannot be encoded; in both cases the publish queue and the in-flight counter are
as before the call. Otherwise it returns nil, the queue has grown by exactly one
message at its tail (content type application/json, persistent delivery mode,
body the encoded payload, topic the given topic, headers holding a non-empty
message id under the message-id key) and the in-flight counter has grown by
exactly 1. -/
theorem Publish_contract {α : Type} (jsonMarshal : α → Except GoError (List UInt8))
    (idKey : String) (uCorr uCtx uMsg : uuid.UUID) (r : rabbitmqPublisher) (ctx : Context)
    (topic : String) (payload : α) :
    ((Publish jsonMarshal idKey uCorr uCtx uMsg r ctx topic payload).2 ≠ none ↔
      (r.chManager.isNone = true ∨ ∃ err, jsonMarshal payload = Except.error err)) ∧
    ((Publish jsonMarshal idKey uCorr uCtx uMsg r ctx topic payload).2 ≠ none →
      (Publish jsonMarshal idKey uCorr uCtx uMsg r ctx topic payload).1.unpublishedMessages
        = r.unpublishedMessages ∧
      (Publish jsonMarshal idKey uCorr uCtx uMsg r ctx topic payload).1.wg = r.wg) ∧
    ((Publish jsonMarshal idKey uCorr uCtx uMsg r ctx topic payload).2 = none →
      ∃ (body : List UInt8) (msg : message),
        jsonMarshal payload = Except.ok body ∧
        (Publish jsonMarshal idKey uCorr uCtx uMsg r ctx topic payload).1.unpublishedMessages
          = r.unpublishedMessages ++ [msg] ∧
        msg.Topic = topic ∧
        msg.Message.ContentType = "application/json" ∧
        msg.Message.DeliveryMode = amqp091.Persistent ∧
        msg.Message.Body = body ∧
        msg.Message.Headers.lookup idKey = some (Value.str uMsg.String) ∧
        uMsg.String ≠ "" ∧
        (Publish jsonMarshal idKey uCorr uCtx uMsg r ctx topic payload).1.wg = r.wg + 1) := by
  cases hch : r.chManager with
  | none => simp [Publish, hch]
  | some ch =>
    cases hm : jsonMarshal payload with
    | error err => simp [Publish, hch, hm]
    | ok body =>
      refine ⟨by simp [Publish, hch, hm], by simp [Publish, hch, hm], ?_⟩
      intro _
      refine ⟨body,
        { Context := ContextWithCorrelationID uCtx ctx (CorrelationIDFromContext uCorr ctx)
          Topic := topic
          Message :=
            { ContentType := "application/json"
              DeliveryMode := amqp091.Persistent
              Body := body
              Headers := amqpTableFromMetadata
                (((MetadataFromContext
                    (ContextWithCorrelationID uCtx ctx
                      (CorrelationIDFromContext uCorr ctx))).getD { entries := [] }).Set
                  idKey uMsg.String) } }, rfl, ?_, ?_⟩
      · simp only [Publish, hch, hm, enqueue]
      · refine ⟨rfl, rfl, rfl, rfl, headers_hold_message_id _ _ _, uuid_String_ne_empty uMsg, ?_⟩
        simp [Publish, hch, hm, enqueue]

/-- Witness of C1: an encodable payload is accepted (one message queued, counter
up by one); a payload that cannot be encoded leaves queue and counter alone. -/
theorem Publish_contract_witness :
    (∃ (body : List UInt8) (msg : message),
      samples.sampleMarshal (some [123, 125]) = Except.ok body ∧
      (Publish samples.sampleMarshal "x-thunder-id" { val := 1 } { val := 2 } { val := 3 }
          samples.samplePublisher { metadata := none } "orders.created"
          (some [123, 125])).1.unpublishedMessages
        = samples.samplePublisher.unpublishedMessages ++ [msg] ∧
      msg.Topic = "orders.created" ∧
      msg.Message.ContentType = "application/json" ∧
      msg.Message.DeliveryMode = amqp091.Persistent ∧
      msg.Message.Body = body ∧
      msg.Message.Headers.lookup "x-thunder-id"
        = some (Value.str (uuid.UUID.String { val := 3 })) ∧
      uuid.UUID.String { val := 3 } ≠ "" ∧
      (Publish samples.sampleMarshal "x-thunder-id" { val := 1 } { val := 2 } { val := 3 }
          samples.samplePublisher { metadata := none } "orders.created"
          (some [123, 125])).1.wg = samples.samplePublisher.wg + 1) ∧
    ((Publish samples.sampleMarshal "x-thunder-id" { val := 1 } { val := 2 } { val := 3 }
          samples.samplePublisher { metadata := none } "orders.created"
          none).1.unpublishedMessages = samples.samplePublisher.unpublishedMessages ∧
      (Publish samples.sampleMarshal "x-thunder-id" { val := 1 } { val := 2 } { val := 3 }
          samples.samplePublisher { metadata := none } "orders.created" none).1.wg
        = samples.samplePublisher.wg) :=
  ⟨(Publish_contract samples.sampleMarshal "x-thunder-id" { val := 1 } { val := 2 } { val := 3 }
      samples.samplePublisher { metadata := none } "orders.created" (some [123, 125])).2.2
      (by decide),
   (Publish_contract samples.sampleMarshal "x-thunder-id" { val := 1 } { val := 2 } { val := 3 }
      samples.samplePublisher { metadata := none } "orders.created" none).2.1 (by decide)⟩

/-- C2: in one send attempt the pipeline is paused exactly when the publish call
itself returns an error: in that case the result is the message re-queued on the
paused publisher; when the publish call succeeds, neither the pause flag nor the
pause signal is touched, and a failed confirmation (wait error, timeout or
negative confirmation) re-queues the message on the publisher as it was. -/
theorem publishMessage_pauses_iff_publish_fails (ch : Channel) (now : Nat)
    (r : rabbitmqPublisher) (msg : message) :
    (∀ err : GoError,
      ch.PublishWithDeferredConfirmWithContext r.config.ExchangeName msg.Topic true false
          (r.tracePropagator msg.Context msg.Message) = Except.error err →
      publishMessage ch now r msg = enqueue (pause r) msg ∧
      (publishMessage ch now r msg).pausePublish = true ∧
      (publishMessage ch now r msg).pauseSignalChan ≠ none) ∧
    (∀ dc : DeferredConfirmation,
      ch.PublishWithDeferredConfirmWithContext r.config.ExchangeName msg.Topic true false
          (r.tracePropagator msg.Context msg.Message) = Except.ok dc →
      (publishMessage ch now r msg).pausePublish = r.pausePublish ∧
      (publishMessage ch now r msg).pauseSignalChan = r.pauseSignalChan ∧
      ((dc.WaitContext.2 ≠ none ∨ dc.WaitContext.1 = false) →
        publishMessage ch now r msg = enqueue r msg)) ∧
    (r.pausePublish = false →
      ((publishMessage ch now r msg).pausePublish = true ↔
        ∃ err : GoError,
          ch.PublishWithDeferredConfirmWithContext r.config.ExchangeName msg.Topic true false
            (r.tracePropagator msg.Context msg.Message) = Except.error err)) := by
  have hok : ∀ dc : DeferredConfirmation,
      ch.PublishWithDeferredConfirmWithContext r.config.ExchangeName msg.Topic true false
          (r.tracePropagator msg.Context msg.Message) = Except.ok dc →
      (publishMessage ch now r msg).pausePublish = r.pausePublish ∧
      (publishMessage ch now r msg).pauseSignalChan = r.pauseSignalChan ∧
      ((dc.WaitContext.2 ≠ none ∨ dc.WaitContext.1 = false) →
        publishMessage ch now r msg = enqueue r msg) := by
    intro dc hdc
    rcases hw : dc.WaitContext with ⟨confirmed, _ | werr⟩
    · cases confirmed <;>
        simp [publishMessage, hdc, hw, enqueue, updatePublishedAt]
    · simp [publishMessage, hdc, hw, enqueue]
  refine ⟨?_, hok, ?_⟩
  · intro err herr
    have hval : publishMessage ch now r msg = enqueue (pause r) msg := by
      simp [publishMessage, herr]
    refine ⟨hval, ?_, ?_⟩
    · rw [hval]
      simp [enqueue, pause]
    · rw [hval]
      cases hs : r.pauseSignalChan <;> simp [enqueue, pause, hs]
  · intro hactive
    cases hp : ch.PublishWithDeferredConfirmWithContext r.config.ExchangeName msg.Topic true
        false (r.tracePropagator msg.Context msg.Message) with
    | error err =>
      have hval : publishMessage ch now r msg = enqueue (pause r) msg := by
        simp [publishMessage, hp]
      rw [hval]
      simp [enqueue, pause]
    | ok dc =>
      rw [(hok dc hp).1, hactive]
      simp

/-- Witness of C2: a failing publish call pauses the publisher; a confirmation
wait that times out re-queues the message and leaves the pause flag alone. -/
theorem publishMessage_pauses_iff_publish_fails_witness :
    (publishMessage samples.brokenChannel 5 samples.samplePublisher samples.sampleMessage
        = enqueue (pause samples.samplePublisher) samples.sampleMessage ∧
      (publishMessage samples.brokenChannel 5 samples.samplePublisher
        samples.sampleMessage).pausePublish = true ∧
      (publishMessage samples.brokenChannel 5 samples.samplePublisher
        samples.sampleMessage).pauseSignalChan ≠ none) ∧
    (publishMessage samples.timingOutChannel 5 samples.samplePublisher
        samples.sampleMessage).pausePublish = samples.samplePublisher.pausePublish ∧
    publishMessage samples.timingOutChannel 5 samples.samplePublisher samples.sampleMessage
      = enqueue samples.samplePublisher samples.sampleMessage :=
  ⟨(publishMessage_pauses_iff_publish_fails samples.brokenChannel 5 samples.samplePublisher
      samples.sampleMessage).1 (GoError.foreign "channel/connection is not open") rfl,
   ((publishMessage_pauses_iff_publish_fails samples.timingOutChannel 5 samples.samplePublisher
      samples.sampleMessage).2.1
      { WaitContext := (false, some (GoError.foreign "context deadline exceeded")) } rfl).1,
   ((publishMessage_pauses_iff_publish_fails samples.timingOutChannel 5 samples.samplePublisher
      samples.sampleMessage).2.1
      { WaitContext := (false, some (GoError.foreign "context deadline exceeded")) } rfl).2.2
      (Or.inl (by decide))⟩

/-! ### The in-flight counter -/

theorem publishMessage_of_not_confirmed (ch : Channel) (now : Nat) (r : rabbitmqPublisher)
    (msg : message) (h : positivelyConfirmed ch r msg = false) :
    (publishMessage ch now r msg).unpublishedMessages = r.unpublishedMessages ++ [msg] ∧
    (publishMessage ch now r msg).wg = r.wg ∧
    (publishMessage ch now r msg).lastPublishedAt = r.lastPublishedAt := by
  rcases hp : ch.PublishWithDeferredConfirmWithContext r.config.ExchangeName msg.Topic true
      false (r.tracePropagator msg.Context msg.Message) with err | dc
  · simp [publishMessage, hp, enqueue, pause]
  · rcases hw : dc.WaitContext with ⟨confirmed, _ | werr⟩
    · simp only [positivelyConfirmed, hp, hw] at h
      subst h
      simp [publishMessage, hp, hw, enqueue]
    · simp [publishMessage, hp, hw, enqueue]

theorem publishMessage_of_confirmed (ch : Channel) (now : Nat) (r : rabbitmqPublisher)
    (msg : message) (h : positivelyConfirmed ch r msg = true) :
    (publishMessage ch now r msg).unpublishedMessages = r.unpublishedMessages ∧
    (publishMessage ch now r msg).wg = r.wg - 1 ∧
    (publishMessage ch now r msg).lastPublishedAt = now := by
  rcases hp : ch.PublishWithDeferredConfirmWithContext r.config.ExchangeName msg.Topic true
      false (r.tracePropagator msg.Context msg.Message) with err | dc
  · simp [positivelyConfirmed, hp] at h
  · rcases hw : dc.WaitContext with ⟨confirmed, _ | werr⟩
    · simp only [positivelyConfirmed, hp, hw] at h
      subst h
      simp [publishMessage, hp, hw, updatePublishedAt]
    · simp [positivelyConfirmed, hp, hw] at h

/-- The invariant of the engine: the in-flight counter is the number of accepted
messages minus the number of positive confirmations, and it is the number of
messages in the queue or held by a send attempt. -/
theorem Engine.step_invariant {α : Type} (jsonMarshal : α → Except GoError (List UInt8))
    (idKey : String) (e : Engine) (ev : Event α)
    (h : e.pub.wg = (e.accepted : Int) - (e.confirmed : Int) ∧
      e.pub.wg = (e.pub.unpublishedMessages.length : Int) + (e.workers.length : Int)) :
    (Engine.step jsonMarshal idKey e ev).pub.wg
        = ((Engine.step jsonMarshal idKey e ev).accepted : Int)
          - ((Engine.step jsonMarshal idKey e ev).confirmed : Int) ∧
    (Engine.step jsonMarshal idKey e ev).pub.wg
        = ((Engine.step jsonMarshal idKey e ev).pub.unpublishedMessages.length : Int)
          + ((Engine.step jsonMarshal idKey e ev).workers.length : Int) := by
  obtain ⟨h1, h2⟩ := h
  cases ev with
  | publish uCorr uCtx uMsg ctx topic payload =>
    cases hch : e.pub.chManager with
    | none =>
      simp only [Engine.step, Publish, hch]
      exact ⟨by simpa using h1, by simpa using h2⟩
    | some ch =>
      cases hm : jsonMarshal payload with
      | error err =>
        simp only [Engine.step, Publish, hch, hm]
        constructor
        · simp only [Option.isNone_some, Bool.false_eq_true, if_false]
          omega
        · omega
      | ok body =>
        simp only [Engine.step, Publish, hch, hm, enqueue]
        simp only [Option.isNone_none, if_true, List.length_append, List.length_singleton,
          Nat.cast_add, Nat.cast_one]
        omega
  | loop =>
    simp only [Engine.step]
    cases hs : e.pub.pauseSignalChan with
    | some v =>
      cases hf : e.pub.pausePublish
      · simp only [proccessingLoopStep, hs, hf]
        exact ⟨by simpa using h1, by simpa using h2⟩
      · simp only [proccessingLoopStep, hs, hf]
        exact ⟨by simpa using h1, by simpa using h2⟩
    | none =>
      cases hq : e.pub.unpublishedMessages with
      | nil =>
        simp only [proccessingLoopStep, hs, hq]
        rw [hq] at h2
        exact ⟨h1, h2⟩
      | cons m rest =>
        simp only [proccessingLoopStep, hs, hq]
        rw [hq] at h2
        simp only [List.length_cons, List.length_append, List.length_nil, Nat.cast_add,
          Nat.cast_one, Nat.cast_zero] at h2 ⊢
        omega
  | attempt i ch now =>
    simp only [Engine.step]
    cases hg : e.workers.get? i with
    | none => exact ⟨h1, h2⟩
    | some msg =>
      have hlt : i < e.workers.length := by
        rcases List.get?_eq_some.mp hg with ⟨hlt, _⟩
        exact hlt
      have hlen : ((e.workers.eraseIdx i).length : Int) = (e.workers.length : Int) - 1 := by
        rw [List.length_eraseIdx_of_lt hlt]
        omega
      simp only
      cases hc : positivelyConfirmed ch e.pub msg with
      | false =>
        obtain ⟨q, c, _⟩ := publishMessage_of_not_confirmed ch now e.pub msg hc
        rw [q, c, hlen]
        simp only [Bool.false_eq_true, if_false, List.length_append, List.length_singleton,
          Nat.cast_add, Nat.cast_one]
        omega
      | true =>
        obtain ⟨q, c, _⟩ := publishMessage_of_confirmed ch now e.pub msg hc
        rw [q, c, hlen]
        simp only [if_true, Nat.cast_add, Nat.cast_one]
        omega

theorem Engine.run_invariant {α : Type} (jsonMarshal : α → Except GoError (List UInt8))
    (idKey : String) (events : List (Event α)) (e : Engine)
    (h : e.pub.wg = (e.accepted : Int) - (e.confirmed : Int) ∧
      e.pub.wg = (e.pub.unpublishedMessages.length : Int) + (e.workers.length : Int)) :
    (Engine.run jsonMarshal idKey e events).pub.wg
        = ((Engine.run jsonMarshal idKey e events).accepted : Int)
          - ((Engine.run jsonMarshal idKey e events).confirmed : Int) ∧
    (Engine.run jsonMarshal idKey e events).pub.wg
        = ((Engine.run jsonMarshal idKey e events).pub.unpublishedMessages.length : Int)
          + ((Engine.run jsonMarshal idKey e events).workers.length : Int) := by
  induction events generalizing e with
  | nil => exact h
  | cons ev events ih =>
    simp only [Engine.run, List.foldl_cons]
    exact ih _ (Engine.step_invariant jsonMarshal idKey e ev h)

/-- C3: one send attempt either re-queues the same message once at the tail of
the publish queue and leaves the in-flight counter as it is (publish call fails;
confirmation wait errors or times out; confirmation is negative), or, on a
positive confirmation, leaves the queue as it is, lowers the in-flight counter by
exactly 1 and records last-published-at. In every run of the engine that starts
with counter 0 and nothing queued, the in-flight counter equals the number of
messages accepted by `Publish` minus the number of positive confirmations, which
is the number of messages queued or held by a send attempt. -/
theorem publishMessage_requeues_or_confirms {α : Type} (ch : Channel) (now : Nat)
    (r : rabbitmqPublisher) (msg : message) (jsonMarshal : α → Except GoError (List UInt8))
    (idKey : String) (e0 : Engine) (events : List (Event α)) :
    (∀ err : GoError,
      ch.PublishWithDeferredConfirmWithContext r.config.ExchangeName msg.Topic true false
          (r.tracePropagator msg.Context msg.Message) = Except.error err →
      (publishMessage ch now r msg).unpublishedMessages = r.unpublishedMessages ++ [msg] ∧
      (publishMessage ch now r msg).wg = r.wg ∧
      (publishMessage ch now r msg).lastPublishedAt = r.lastPublishedAt) ∧
    (∀ (dc : DeferredConfirmation) (confirmed : Bool) (werr : GoError),
      ch.PublishWithDeferredConfirmWithContext r.config.ExchangeName msg.Topic true false
          (r.tracePropagator msg.Context msg.Message) = Except.ok dc →
      dc.WaitContext = (confirmed, some werr) →
      (publishMessage ch now r msg).unpublishedMessages = r.unpublishedMessages ++ [msg] ∧
      (publishMessage ch now r msg).wg = r.wg ∧
      (publishMessage ch now r msg).lastPublishedAt = r.lastPublishedAt) ∧
    (∀ dc : DeferredConfirmation,
      ch.PublishWithDeferredConfirmWithContext r.config.ExchangeName msg.Topic true false
          (r.tracePropagator msg.Context msg.Message) = Except.ok dc →
      dc.WaitContext = (false, none) →
      (publishMessage ch now r msg).unpublishedMessages = r.unpublishedMessages ++ [msg] ∧
      (publishMessage ch now r msg).wg = r.wg ∧
      (publishMessage ch now r msg).lastPublishedAt = r.lastPublishedAt) ∧
    (∀ dc : DeferredConfirmation,
      ch.PublishWithDeferredConfirmWithContext r.config.ExchangeName msg.Topic true false
          (r.tracePropagator msg.Context msg.Message) = Except.ok dc →
      dc.WaitContext = (true, none) →
      (publishMessage ch now r msg).unpublishedMessages = r.unpublishedMessages ∧
      (publishMessage ch now r msg).wg = r.wg - 1 ∧
      (publishMessage ch now r msg).lastPublishedAt = now) ∧
    (e0.pub.wg = 0 → e0.pub.unpublishedMessages = [] → e0.workers = [] →
      e0.accepted = 0 → e0.confirmed = 0 →
      (Engine.run jsonMarshal idKey e0 events).pub.wg
          = ((Engine.run jsonMarshal idKey e0 events).accepted : Int)
            - ((Engine.run jsonMarshal idKey e0 events).confirmed : Int) ∧
      (Engine.run jsonMarshal idKey e0 events).pub.wg
          = ((Engine.run jsonMarshal idKey e0 events).pub.unpublishedMessages.length : Int)
            + ((Engine.run jsonMarshal idKey e0 events).workers.length : Int)) := by
  refine ⟨?_, ?_, ?_, ?_, ?_⟩
  · intro err hp
    exact publishMessage_of_not_confirmed ch now r msg (by simp [positivelyConfirmed, hp])
  · intro dc confirmed werr hp hw
    exact publishMessage_of_not_confirmed ch now r msg (by simp [positivelyConfirmed, hp, hw])
  · intro dc hp hw
    exact publishMessage_of_not_confirmed ch now r msg (by simp [positivelyConfirmed, hp, hw])
  · intro dc hp hw
    exact publishMessage_of_confirmed ch now r msg (by simp [positivelyConfirmed, hp, hw])
  · intro hwg hq hwk hacc hconf
    apply Engine.run_invariant
    rw [hwg, hq, hwk, hacc, hconf]
    simp

/-- Witness of C3: a failing publish call re-queues the message, a positive
confirmation lowers the counter, and after publishing one payload, a timed-out
attempt and a confirmed attempt the counter is back at 0. -/
theorem publishMessage_requeues_or_confirms_witness :
    ((publishMessage samples.brokenChannel 5 samples.samplePublisher
          samples.sampleMessage).unpublishedMessages
        = samples.samplePublisher.unpublishedMessages ++ [samples.sampleMessage] ∧
      (publishMessage samples.brokenChannel 5 samples.samplePublisher samples.sampleMessage).wg
        = samples.samplePublisher.wg ∧
      (publishMessage samples.brokenChannel 5 samples.samplePublisher
          samples.sampleMessage).lastPublishedAt = samples.samplePublisher.lastPublishedAt) ∧
    ((publishMessage samples.confirmingChannel 5 samples.samplePublisher
          samples.sampleMessage).unpublishedMessages
        = samples.samplePublisher.unpublishedMessages ∧
      (publishMessage samples.confirmingChannel 5 samples.samplePublisher
          samples.sampleMessage).wg = samples.samplePublisher.wg - 1 ∧
      (publishMessage samples.confirmingChannel 5 samples.samplePublisher
          samples.sampleMessage).lastPublishedAt = 5) ∧
    ((Engine.run samples.sampleMarshal "x-thunder-id" samples.sampleEngine
          samples.sampleEvents).pub.wg
        = ((Engine.run samples.sampleMarshal "x-thunder-id" samples.sampleEngine
            samples.sampleEvents).accepted : Int)
          - ((Engine.run samples.sampleMarshal "x-thunder-id" samples.sampleEngine
            samples.sampleEvents).confirmed : Int) ∧
      (Engine.run samples.sampleMarshal "x-thunder-id" samples.sampleEngine
          samples.sampleEvents).pub.wg
        = ((Engine.run samples.sampleMarshal "x-thunder-id" samples.sampleEngine
            samples.sampleEvents).pub.unpublishedMessages.length : Int)
          + ((Engine.run samples.sampleMarshal "x-thunder-id" samples.sampleEngine
            samples.sampleEvents).workers.length : Int)) :=
  ⟨(publishMessage_requeues_or_confirms samples.brokenChannel 5 samples.samplePublisher
      samples.sampleMessage samples.sampleMarshal "x-thunder-id" samples.sampleEngine
      samples.sampleEvents).1 (GoError.foreign "channel/connection is not open") rfl,
   (publishMessage_requeues_or_confirms samples.confirmingChannel 5 samples.samplePublisher
      samples.sampleMessage samples.sampleMarshal "x-thunder-id" samples.sampleEngine
      samples.sampleEvents).2.2.2.1 { WaitContext := (true, none) } rfl rfl,
   (publishMessage_requeues_or_confirms samples.confirmingChannel 5 samples.samplePublisher
      samples.sampleMessage samples.sampleMarshal "x-thunder-id" samples.sampleEngine
      samples.sampleEvents).2.2.2.2 rfl rfl rfl rfl rfl⟩

/-! ### The dispatcher -/

theorem proccessingLoopStep_of_signal (r : rabbitmqPublisher) (v : Bool)
    (hs : r.pauseSignalChan = some v) :
    proccessingLoopStep r
      = LoopStep.idle { r with pauseSignalChan := if r.pausePublish then some true else none } := by
  cases hf : r.pausePublish <;> simp [proccessingLoopStep, hs, hf]

theorem proccessingLoop_paused (n : Nat) (r : rabbitmqPublisher) (hf : r.pausePublish = true)
    (hs : r.pauseSignalChan ≠ none) :
    (proccessingLoop n r).2 = [] ∧
    (proccessingLoop n r).1.unpublishedMessages = r.unpublishedMessages ∧
    (proccessingLoop n r).1.pausePublish = true ∧
    (proccessingLoop n r).1.pauseSignalChan ≠ none := by
  induction n generalizing r with
  | zero => exact ⟨rfl, rfl, hf, hs⟩
  | succ n ih =>
    obtain ⟨v, hv⟩ := Option.ne_none_iff_exists'.mp hs
    simp only [proccessingLoop, proccessingLoopStep_of_signal r v hv, hf, if_true]
    exact ih _ rfl (by simp)

/-- C10: one iteration of the dispatcher, as a step on the pause flag, the
pending pause signal and the publish queue. With a signal pending the step takes
no message from the queue, leaves the flag as it is, and a signal is pending
afterwards exactly when the flag is set. With no signal pending the step takes
exactly the head of the queue and hands it to a send attempt (on an empty queue
the receive blocks). From a paused state (flag set, signal pending) no number of
steps dispatches a message, and the state stays paused; once the flag is
cleared, the pending signal is consumed and the next step dispatches the head. -/
theorem proccessingLoopStep_spec (r : rabbitmqPublisher) :
    (∀ v : Bool, r.pauseSignalChan = some v →
      ∃ r1 : rabbitmqPublisher, proccessingLoopStep r = LoopStep.idle r1 ∧
        r1.unpublishedMessages = r.unpublishedMessages ∧
        r1.pausePublish = r.pausePublish ∧
        r1.wg = r.wg ∧
        (r1.pauseSignalChan ≠ none ↔ r.pausePublish = true)) ∧
    (r.pauseSignalChan = none →
      ∀ (msg : message) (rest : List message), r.unpublishedMessages = msg :: rest →
        proccessingLoopStep r = LoopStep.dispatch msg { r with unpublishedMessages := rest }) ∧
    (r.pauseSignalChan = none → r.unpublishedMessages = [] →
      proccessingLoopStep r = LoopStep.blocked) ∧
    (r.pausePublish = true → r.pauseSignalChan ≠ none →
      ∀ n : Nat,
        (proccessingLoop n r).2 = [] ∧
        (proccessingLoop n r).1.unpublishedMessages = r.unpublishedMessages ∧
        (proccessingLoop n r).1.pausePublish = true ∧
        (proccessingLoop n r).1.pauseSignalChan ≠ none) ∧
    (r.pausePublish = false → r.pauseSignalChan ≠ none →
      ∀ (msg : message) (rest : List message), r.unpublishedMessages = msg :: rest →
        (proccessingLoop 2 r).2 = [msg] ∧
        (proccessingLoop 2 r).1.unpublishedMessages = rest) := by
  refine ⟨?_, ?_, ?_, ?_, ?_⟩
  · intro v hv
    refine ⟨_, proccessingLoopStep_of_signal r v hv, rfl, rfl, rfl, ?_⟩
    cases hf : r.pausePublish <;> simp
  · intro hs msg rest hq
    simp [proccessingLoopStep, hs, hq]
  · intro hs hq
    simp [proccessingLoopStep, hs, hq]
  · intro hf hs n
    exact proccessingLoop_paused n r hf hs
  · intro hf hs msg rest hq
    obtain ⟨v, hv⟩ := Option.ne_none_iff_exists'.mp hs
    have h1 : proccessingLoopStep r = LoopStep.idle { r with pauseSignalChan := none } := by
      rw [proccessingLoopStep_of_signal r v hv]
      simp [hf]
    have h2 : proccessingLoopStep { r with pauseSignalChan := none }
        = LoopStep.dispatch msg
            { r with pauseSignalChan := none, unpublishedMessages := rest } := by
      simp [proccessingLoopStep, hq]
    simp [proccessingLoop, h1, h2]

/-- Witness of C10: a paused publisher with one queued message keeps it queued
over five dispatcher steps; an active publisher dispatches it in one step. -/
theorem proccessingLoopStep_spec_witness :
    ((proccessingLoop 5 (enqueue (pause samples.samplePublisher) samples.sampleMessage)).2 = [] ∧
      (proccessingLoop 5
          (enqueue (pause samples.samplePublisher) samples.sampleMessage)).1.unpublishedMessages
        = (enqueue (pause samples.samplePublisher) samples.sampleMessage).unpublishedMessages ∧
      (proccessingLoop 5
          (enqueue (pause samples.samplePublisher) samples.sampleMessage)).1.pausePublish = true ∧
      (proccessingLoop 5
          (enqueue (pause samples.samplePublisher) samples.sampleMessage)).1.pauseSignalChan
        ≠ none) ∧
    proccessingLoopStep (enqueue samples.samplePublisher samples.sampleMessage)
      = LoopStep.dispatch samples.sampleMessage
          { enqueue samples.samplePublisher samples.sampleMessage with
            unpublishedMessages := [] } :=
  ⟨(proccessingLoopStep_spec
      (enqueue (pause samples.samplePublisher) samples.sampleMessage)).2.2.2.1 rfl (by decide) 5,
   (proccessingLoopStep_spec (enqueue samples.samplePublisher samples.sampleMessage)).2.1 rfl
      samples.sampleMessage [] rfl⟩

end publisher

end Thunder
